import Mathlib

/-!
Verification of `acdcli/cache/sync.py`: a shallow embedding of the sync
module (checkpoint store, staleness estimator, purge handler, node
classifier/dispatcher, folder/file upserters) together with proofs of the
specification's claims about it.

Conventions of the embedding:
* Python dict subscription `d['k']` on a raw record is a fallible access
  returning `Except PyErr`; a missing key raises `PyErr.keyError k`.
  `d.get('k')` is the total `Option`-valued access.
* Timestamp strings are carried opaquely: the external collaborator
  `iso_date.parse` is modelled as the (injective, total) identity on the
  raw string, since no claim concerns malformed timestamps.
* Local bookkeeping instants (`updated`, `utcnow`) are `Nat` values in
  seconds; `timedelta(days=1)` is 86400 of those units.
* The SQLAlchemy session is modelled by threading the evolving table
  through the per-record loop (queries see earlier flushed changes, as
  with autoflush); `commit` either applies the threaded state or — when
  the environment injects a storage-layer error `commitErr` — raises that
  error, which each upserter catches exactly as its `try/except` does.
  Rolling back restores the tables as they were at call entry.
* Log output is modelled as a list of `LogEntry` returned on non-raising
  paths.
-/

/-- Python-level exceptions that the sync module can raise or catch:
dict `KeyError`, and the storage-layer `IntegrityError` / `ValueError`
classes appearing in the two upserters' `except` clauses. -/
inductive PyErr where
  | keyError (key : String)
  | integrityError
  | valueError
deriving DecidableEq, Repr

deriving instance DecidableEq for Except

/-- `d['k']`: fallible dict subscription on an optional field. -/
def getItem (key : String) : Option α → Except PyErr α
  | some v => .ok v
  | none => .error (.keyError key)

/-- Remote-authoritative instants, carried as their raw ISO-8601 string. -/
abbrev Instant := String

/-- The external timestamp parser (`iso_date.parse`), modelled as the
identity on the raw string. -/
def iso_parse (s : String) : Instant := s

/-- The `contentProperties` sub-dict of a raw FILE record; its own keys
may also be absent. -/
structure ContentProps where
  md5 : Option String
  size : Option Int
deriving DecidableEq, Repr

/-- A raw node record as supplied by the external API client (spec §6).
Every top-level key may be absent. -/
structure RawNode where
  id : Option String
  kind : Option String
  status : Option String
  name : Option String
  createdDate : Option String
  modifiedDate : Option String
  parents : Option (List String)
  contentProperties : Option ContentProps
deriving DecidableEq, Repr

/-- A stored Folder row (`db.Folder`): id, optional name (absent for the
root), remote timestamps, status, and the local `updated` instant. -/
structure FolderRow where
  id : String
  name : Option String
  created : Instant
  modified : Instant
  status : String
  updated : Nat
deriving DecidableEq, Repr

/-- A stored File row (`db.File`): a Folder row's fields plus checksum
(md5) and size. -/
structure FileRow where
  id : String
  name : String
  created : Instant
  modified : Instant
  md5 : String
  size : Int
  status : String
  updated : Nat
deriving DecidableEq, Repr

/-- Modelled from the spec: content equality of two Folder rows
(`db.Folder.__eq__`, absent from src/) compares all content fields —
id, name, timestamps, status — and excludes the local `updated`
bookkeeping instant (spec §3, "Content equality"). -/
def folderEq (a b : FolderRow) : Bool :=
  a.id == b.id && a.name == b.name && a.created == b.created
    && a.modified == b.modified && a.status == b.status

/-- Modelled from the spec: content equality of two File rows
(`db.File.__eq__`, absent from src/): content fields including
checksum and size, excluding `updated` (spec §3). -/
def fileEq (a b : FileRow) : Bool :=
  a.id == b.id && a.name == b.name && a.created == b.created
    && a.modified == b.modified && a.md5 == b.md5 && a.size == b.size
    && a.status == b.status

/-- Log levels used by the module. -/
inductive LogLevel where
  | debug
  | info
  | warning
  | error
deriving DecidableEq, Repr

/-- One emitted log record. -/
structure LogEntry where
  level : LogLevel
  msg : String
deriving DecidableEq, Repr

/-- Modelled from the spec: the persisted store owned by this core
(spec §6): a Folder table and a File table each keyed by id, a parentage
edge table keyed by the unique (child, parent) pair — rows are stored as
`(parent, child)`, matching the column order of
`INSERT OR IGNORE INTO parentage VALUES (?, ?)', p, rel[0]` — and a
key/value metadata table for the checkpoint. -/
structure DB where
  folders : List FolderRow
  files : List FileRow
  parentage : List (String × String)
  metadata : List (String × String)
deriving DecidableEq, Repr

/-- The empty store. -/
def DB.empty : DB := ⟨[], [], [], []⟩

/-- The fixed metadata key of the checkpoint singleton. -/
def CHECKPOINT_KEY : String := "checkpoint"

/-- `get_checkpoint()`: first metadata row under the fixed key, or
none if never set. -/
def get_checkpoint (db : DB) : Option String :=
  (db.metadata.find? (fun kv => kv.1 == CHECKPOINT_KEY)).map (fun kv => kv.2)

/-- Modelled from the spec: `db.session.merge` of a `db.Metadate` row
(class absent from src/) upserts by the primary key: it overwrites the
row under that key when present, otherwise inserts a new row (the
metadata table is keyed by `key`, so at most one row matches). -/
def metaMerge (key value : String) : List (String × String) →
    List (String × String)
  | [] => [(key, value)]
  | kv :: rest =>
    if kv.1 == key then (key, value) :: rest
    else kv :: metaMerge key value rest

/-- `set_checkpoint(cp)`: merge the singleton metadata row under the
fixed key and commit. -/
def set_checkpoint (db : DB) (cp : String) : DB :=
  { db with metadata := metaMerge CHECKPOINT_KEY cp db.metadata }

/-- The `updated` instants of every stored node, folders and files alike
(`db.session.query(func.max(db.Node.updated))` ranges over both concrete
kinds of `db.Node`). -/
def allUpdated (db : DB) : List Nat :=
  db.folders.map (fun f => f.updated) ++ db.files.map (fun f => f.updated)

/-- `max_age()`: `(datetime.utcnow() - oldest) / timedelta(days=1)` where
`oldest` is the SQL MAX of `updated`; the empty store yields SQL NULL,
i.e. a falsy `None`, and the function returns 0. -/
def max_age (now : Nat) (db : DB) : ℚ :=
  match (allUpdated db).max? with
  | none => 0
  | some m => ((now : ℚ) - (m : ℚ)) / 86400

/-- One iteration of `remove_purged`'s loop: query the first Node row
with the given id (either concrete kind) and delete it if present;
absence of a match does nothing. -/
def deleteNodeRow (db : DB) (i : String) : DB :=
  if db.folders.any (fun f => f.id == i) then
    { db with folders := db.folders.eraseP (fun f => f.id == i) }
  else if db.files.any (fun f => f.id == i) then
    { db with files := db.files.eraseP (fun f => f.id == i) }
  else
    db

/-- `remove_purged(purged)`: delete each id's matching row if any, commit
once, and log `'Purged %i nodes.' % len(purged)`. -/
def remove_purged (db : DB) (purged : List String) : DB × List LogEntry :=
  (purged.foldl deleteNodeRow db,
   [⟨.info, "Purged " ++ toString purged.length ++ " nodes."⟩])

/-- `INSERT OR IGNORE INTO parentage VALUES (?, ?)`: append the
`(parent, child)` row unless the unique pair already exists. -/
def insertOrIgnore (row : String × String) (t : List (String × String)) :
    List (String × String) :=
  if t.contains row then t else t ++ [row]

/-- The edge-insert loop shared by the two upserters:
`for rel in parent_pairs: for p in rel[1]: INSERT OR IGNORE (p, rel[0])`. -/
def applyEdgeInserts (pairs : List (String × List String))
    (t : List (String × String)) : List (String × String) :=
  pairs.foldl (fun acc rel => rel.2.foldl (fun a p => insertOrIgnore (p, rel.1) a) acc) t

/-- Accumulated state of `insert_folders`' per-record loop: tallies,
the session's view of the Folder table, the collected
`parent_pairs`, and the log output so far. (`dtd` is never incremented
and is omitted.) -/
structure FolderLoopState where
  ins : Nat
  dup : Nat
  upd : Nat
  cur : List FolderRow
  pairs : List (String × List String)
  logs : List LogEntry
deriving DecidableEq, Repr

/-- One iteration of `insert_folders`' per-record loop: debug-log the
record, build the candidate row (`folder.get('name')` tolerates a
missing name; the other keys are subscripted and can raise), query the
existing row by id, set `updated`, then insert / tally-duplicate / merge
(SQLAlchemy merge overwrites the row with the same primary key, leaving
every other row — in particular the parentage table — intact), and
append `(f.id, folder['parents'])` to `parent_pairs`. -/
def folderStep (now : Nat) (s : FolderLoopState) (r : RawNode) :
    Except PyErr FolderLoopState := do
  let logs := s.logs ++ [⟨.debug, "folder record"⟩]
  let i ← getItem "id" r.id
  let cd ← getItem "createdDate" r.createdDate
  let md ← getItem "modifiedDate" r.modifiedDate
  let st ← getItem "status" r.status
  let f : FolderRow := ⟨i, r.name, iso_parse cd, iso_parse md, st, now⟩
  let s' :=
    match s.cur.find? (fun x => x.id == i) with
    | none =>
        { s with ins := s.ins + 1, cur := s.cur ++ [f], logs := logs }
    | some ef =>
        if folderEq f ef then
          { s with dup := s.dup + 1,
                   cur := s.cur.map (fun (x : FolderRow) => if x.id == i then f else x),
                   logs := logs }
        else
          { s with upd := s.upd + 1,
                   cur := s.cur.map (fun (x : FolderRow) => if x.id == i then f else x),
                   logs := logs }
  let ps ← getItem "parents" r.parents
  .ok { s' with pairs := s'.pairs ++ [(f.id, ps)] }

/-- The per-record loop of `insert_folders`. -/
def foldersLoop (now : Nat) (s : FolderLoopState) :
    List RawNode → Except PyErr FolderLoopState
  | [] => .ok s
  | r :: rest => do
    let s' ← folderStep now s r
    foldersLoop now s' rest

/-- The summary logs emitted after the node-row commit of
`insert_folders` (`dtd` is always 0, so its line never appears). -/
def folderSummary (ins dup upd : Nat) : List LogEntry :=
  (if ins > 0 then [⟨.info, toString ins ++ " folder(s) inserted."⟩] else [])
    ++ (if dup > 0 then [⟨.info, toString dup ++ " duplicate folders not inserted."⟩] else [])
    ++ (if upd > 0 then [⟨.info, toString upd ++ " folder(s) updated."⟩] else [])

/-- The node-row commit of `insert_folders` with its `try/except
IntegrityError` guard: on no storage-layer error the session state is
committed; on an `IntegrityError` a warning is logged and the session is
rolled back to the at-entry table; any other storage-layer error
propagates. Returns the resulting Folder table and the log output. -/
def commitFolders (commitErr : Option PyErr) (cur origTable : List FolderRow)
    (logs : List LogEntry) : Except PyErr (List FolderRow × List LogEntry) :=
  match commitErr with
  | none => .ok (cur, logs)
  | some .integrityError =>
      .ok (origTable, logs ++ [⟨.warning, "Error inserting folders."⟩])
  | some e => .error e

/-- `insert_folders(folders)`: run the per-record loop, commit the
node-row transaction (`except IntegrityError`: log a warning and roll
back), then, in a second transaction over the original payload, delete
every touched child's outgoing edges and re-insert one edge per parent
with `INSERT OR IGNORE`. `commitErr` injects the storage-layer error, if
any, that the commit raises. -/
def insert_folders (now : Nat) (commitErr : Option PyErr) (db : DB)
    (folders : List RawNode) : Except PyErr (DB × List LogEntry) := do
  let s ← foldersLoop now ⟨0, 0, 0, db.folders, [], []⟩ folders
  let committed ← commitFolders commitErr s.cur db.folders s.logs
  let logs := committed.2 ++ folderSummary s.ins s.dup s.upd
  let ids ← folders.mapM (fun f => getItem "id" f.id)
  let afterDel := db.parentage.filter (fun e => !(ids.contains e.2))
  .ok ({ db with folders := committed.1,
                 parentage := applyEdgeInserts s.pairs afterDel }, logs)

/-- Accumulated state of `insert_files`' per-record loop (that loop emits
no debug log, so no log field). -/
structure FileLoopState where
  ins : Nat
  dup : Nat
  upd : Nat
  cur : List FileRow
  pairs : List (String × List String)
deriving DecidableEq, Repr

/-- The well-known checksum of zero-length content, substituted for a
record with no `contentProperties` block. -/
def EMPTY_MD5 : String := "d41d8cd98f00b204e9800998ecf8427e"

/-- One iteration of `insert_files`' per-record loop: default `props`
only when the whole `contentProperties` block is absent; build the
candidate row subscripting `file['id']`, `file['name']`, the dates,
`props['md5']`, `props['size']`, `file['status']` in Python's argument
order; query the existing row by id; insert, or tally and
delete-then-reinsert; append `(f.id, file['parents'])`. -/
def fileStep (now : Nat) (s : FileLoopState) (r : RawNode) :
    Except PyErr FileLoopState := do
  let props : ContentProps :=
    match r.contentProperties with
    | some p => p
    | none => ⟨some EMPTY_MD5, some 0⟩
  let i ← getItem "id" r.id
  let nm ← getItem "name" r.name
  let cd ← getItem "createdDate" r.createdDate
  let md ← getItem "modifiedDate" r.modifiedDate
  let h5 ← getItem "md5" props.md5
  let sz ← getItem "size" props.size
  let st ← getItem "status" r.status
  let f : FileRow := ⟨i, nm, iso_parse cd, iso_parse md, h5, sz, st, now⟩
  let s' :=
    match s.cur.find? (fun x => x.id == i) with
    | none =>
        { s with ins := s.ins + 1, cur := s.cur ++ [f] }
    | some ef =>
        if fileEq f ef then
          { s with dup := s.dup + 1,
                   cur := (s.cur.eraseP (fun (x : FileRow) => x.id == i)) ++ [f] }
        else
          { s with upd := s.upd + 1,
                   cur := (s.cur.eraseP (fun (x : FileRow) => x.id == i)) ++ [f] }
  let ps ← getItem "parents" r.parents
  .ok { s' with pairs := s'.pairs ++ [(f.id, ps)] }

/-- The per-record loop of `insert_files`. -/
def filesLoop (now : Nat) (s : FileLoopState) :
    List RawNode → Except PyErr FileLoopState
  | [] => .ok s
  | r :: rest => do
    let s' ← fileStep now s r
    filesLoop now s' rest

/-- The summary logs of `insert_files` (order in the source: inserted,
updated, duplicate; `dtd` is always 0). -/
def fileSummary (ins dup upd : Nat) : List LogEntry :=
  (if ins > 0 then [⟨.info, toString ins ++ " file(s) inserted."⟩] else [])
    ++ (if upd > 0 then [⟨.info, toString upd ++ " file(s) updated."⟩] else [])
    ++ (if dup > 0 then [⟨.info, toString dup ++ " duplicate files not inserted."⟩] else [])

/-- The node-row commit of `insert_files` with its `try/except
ValueError` guard: it catches only `ValueError` (logging an error and
rolling back); in particular a storage-layer `IntegrityError` is NOT
caught and propagates to the caller. -/
def commitFiles (commitErr : Option PyErr) (cur origTable : List FileRow) :
    Except PyErr (List FileRow × List LogEntry) :=
  match commitErr with
  | none => .ok (cur, ([] : List LogEntry))
  | some .valueError =>
      .ok (origTable, [⟨.error, "Error inserting files."⟩])
  | some e => .error e

/-- `insert_files(files)`: per-record loop, node-row commit guarded by
`except ValueError` only (an `IntegrityError` propagates), then the same
second-transaction parentage rewrite over the original payload. -/
def insert_files (now : Nat) (commitErr : Option PyErr) (db : DB)
    (files : List RawNode) : Except PyErr (DB × List LogEntry) := do
  let s ← filesLoop now ⟨0, 0, 0, db.files, []⟩ files
  let committed ← commitFiles commitErr s.cur db.files
  let logs := committed.2 ++ fileSummary s.ins s.dup s.upd
  let ids ← files.mapM (fun f => getItem "id" f.id)
  let afterDel := db.parentage.filter (fun e => !(ids.contains e.2))
  .ok ({ db with files := committed.1,
                 parentage := applyEdgeInserts s.pairs afterDel }, logs)

/-- The warning logged for an unrecognized node kind. -/
def unknownKindLog (kind : String) : LogEntry :=
  ⟨.warning, "Cannot insert unknown node type " ++ kind ++ "."⟩

/-- The classification loop of `insert_nodes`: skip records whose
`status` is PENDING, then split on `kind` into the files and folders
groups, warning on any kind other than FILE, FOLDER and ASSET. Returns
(files group, folders group, warnings), each in batch order. -/
def classifyNodes : List RawNode →
    Except PyErr (List RawNode × List RawNode × List LogEntry)
  | [] => .ok ([], [], [])
  | n :: rest => do
    let st ← getItem "status" n.status
    if st == "PENDING" then
      classifyNodes rest
    else do
      let k ← getItem "kind" n.kind
      let (fs, ds, ws) ← classifyNodes rest
      if k == "FILE" then .ok (n :: fs, ds, ws)
      else if k == "FOLDER" then .ok (fs, n :: ds, ws)
      else if k != "ASSET" then .ok (fs, ds, unknownKindLog k :: ws)
      else .ok (fs, ds, ws)

/-- `insert_nodes(nodes)`: classify the mixed batch, then
`insert_folders(folders)` followed by `insert_files(files)`. The two
commit outcomes are injected separately. -/
def insert_nodes (now : Nat) (folderCommitErr fileCommitErr : Option PyErr)
    (db : DB) (nodes : List RawNode) : Except PyErr (DB × List LogEntry) := do
  let (fs, ds, ws) ← classifyNodes nodes
  let (db1, logs1) ← insert_folders now folderCommitErr db ds
  let (db2, logs2) ← insert_files now fileCommitErr db1 fs
  .ok (db2, ws ++ logs1 ++ logs2)

/-- `insert_node(node)`: the single-record entry point. The
`if not node: pass` statement in the source has no effect; the record's
`status` is never examined — dispatch is on `kind` alone. -/
def insert_node (now : Nat) (commitErr : Option PyErr) (db : DB)
    (node : RawNode) : Except PyErr (DB × List LogEntry) := do
  let k ← getItem "kind" node.kind
  if k == "FILE" then insert_files now commitErr db [node]
  else if k == "FOLDER" then insert_folders now commitErr db [node]
  else if k != "ASSET" then .ok (db, [unknownKindLog k])
  else .ok (db, [])

/-! ### Characterizations used in claim statements, and sample records -/

/-- A record not dropped by the PENDING filter of `insert_nodes`. -/
def notPending (r : RawNode) : Bool := !(r.status == some "PENDING")

/-- The FILE group `insert_nodes` extracts from a batch, in batch order. -/
def fileGroup (nodes : List RawNode) : List RawNode :=
  nodes.filter (fun r => notPending r && r.kind == some "FILE")

/-- The FOLDER group `insert_nodes` extracts from a batch, in batch order. -/
def folderGroup (nodes : List RawNode) : List RawNode :=
  nodes.filter (fun r => notPending r && r.kind == some "FOLDER")

/-- A kind tag that is neither FILE nor FOLDER nor ASSET. -/
def unknownKind (r : RawNode) : Bool :=
  !(r.kind == some "FILE") && !(r.kind == some "FOLDER")
    && !(r.kind == some "ASSET")

/-- The warnings `insert_nodes` emits for a batch: one per non-PENDING
record of unrecognized kind, in batch order. -/
def warnGroup (nodes : List RawNode) : List LogEntry :=
  (nodes.filter (fun r => notPending r && unknownKind r)).map
    (fun r => unknownKindLog (r.kind.getD ""))

/-- A fully-populated AVAILABLE FILE record. -/
def sampleFile (i : String) (ps : List String) : RawNode :=
  ⟨some i, some "FILE", some "AVAILABLE", some ("name-" ++ i),
   some "2015-01-01T00:00:00.000Z", some "2015-01-02T00:00:00.000Z",
   some ps, some ⟨some "abc", some 5⟩⟩

/-- A fully-populated AVAILABLE FOLDER record. -/
def sampleFolder (i : String) (ps : List String) : RawNode :=
  ⟨some i, some "FOLDER", some "AVAILABLE", some ("name-" ++ i),
   some "2015-01-01T00:00:00.000Z", some "2015-01-02T00:00:00.000Z",
   some ps, none⟩

/-- A FILE record whose `status` is PENDING. -/
def pendingFile : RawNode := { sampleFile "a1" ["P1"] with status := some "PENDING" }

/-- The spec §8 mixed batch: one PENDING folder, one ASSET record, one
record of kind WIDGET, one valid FILE, one valid FOLDER. -/
def fiveBatch : List RawNode :=
  [{ sampleFolder "f0" [] with status := some "PENDING" },
   { sampleFolder "x1" [] with kind := some "ASSET" },
   { sampleFolder "y1" [] with kind := some "WIDGET" },
   sampleFile "a1" ["P1"],
   sampleFolder "f1" ["P1"]]

/-! ### Basic reduction lemmas for the embedding's monadic plumbing -/

theorem exBind_ok (a : α) (f : α → Except PyErr β) :
    (Except.ok a >>= f : Except PyErr β) = f a := rfl

theorem exBind_error (e : PyErr) (f : α → Except PyErr β) :
    ((Except.error e : Except PyErr α) >>= f) = Except.error e := rfl

theorem getItem_some (key : String) (v : α) : getItem key (some v) = .ok v := rfl

theorem getItem_none (key : String) :
    (getItem key (none : Option α)) = .error (.keyError key) := rfl

/-! ### Checkpoint-store lemmas -/

theorem metaMerge_find (k v : String) (rows : List (String × String)) :
    (metaMerge k v rows).find? (fun kv => kv.1 == k) = some (k, v) := by
  induction rows with
  | nil => simp [metaMerge]
  | cons kv rest ih =>
    by_cases hk : kv.1 == k
    · simp [metaMerge, hk]
    · simp only [metaMerge, if_neg hk, List.find?_cons]
      rw [show (kv.1 == k) = false from Bool.of_not_eq_true hk]
      exact ih

theorem metaMerge_idem (k v : String) (rows : List (String × String)) :
    metaMerge k v (metaMerge k v rows) = metaMerge k v rows := by
  induction rows with
  | nil => simp [metaMerge]
  | cons kv rest ih =>
    by_cases hk : kv.1 == k
    · simp [metaMerge, hk]
    · simp only [metaMerge, if_neg hk]
      rw [ih]

theorem metaMerge_filter_length (k v : String) (rows : List (String × String))
    (h : (rows.filter (fun kv => kv.1 == k)).length ≤ 1) :
    ((metaMerge k v rows).filter (fun kv => kv.1 == k)).length = 1 := by
  induction rows with
  | nil => simp [metaMerge]
  | cons kv rest ih =>
    by_cases hk : kv.1 == k
    · simp only [metaMerge, if_pos hk]
      rw [@List.filter_cons_of_pos _ (fun kv => kv.1 == k) (k, v) rest (by simp)]
      rw [@List.filter_cons_of_pos _ (fun kv => kv.1 == k) kv rest hk] at h
      simp only [List.length_cons] at h ⊢
      omega
    · simp only [metaMerge, if_neg hk]
      rw [@List.filter_cons_of_neg _ (fun kv => kv.1 == k) kv (metaMerge k v rest) hk]
      rw [@List.filter_cons_of_neg _ (fun kv => kv.1 == k) kv rest hk] at h
      exact ih h

/-! ### Purge-handler lemmas -/

/-- The node store's key invariant (spec §3): ids are unique within each
kind's table and never shared across the two kinds. -/
def idsNodup (db : DB) : Prop :=
  (db.folders.map (fun f => f.id) ++ db.files.map (fun f => f.id)).Nodup

theorem eraseP_key_eq_filter {α : Type} (key : α → String) (p : String) :
    ∀ l : List α, (l.map key).Nodup →
      l.eraseP (fun x => key x == p) = l.filter (fun x => !(key x == p)) := by
  intro l
  induction l with
  | nil => intro _; rfl
  | cons a rest ih =>
    intro hn
    simp only [List.map_cons, List.nodup_cons] at hn
    by_cases hk : key a == p
    · rw [@List.eraseP_cons_of_pos _ a rest (fun x => key x == p) hk,
        @List.filter_cons_of_neg _ (fun x => !(key x == p)) a rest (by simp [hk])]
      have hap : key a = p := by simpa using hk
      refine (List.filter_eq_self.mpr ?_).symm
      intro x hx
      have hne : key x ≠ key a := fun he => hn.1 (he ▸ List.mem_map_of_mem key hx)
      simp [hap ▸ hne]
    · rw [@List.eraseP_cons_of_neg _ a rest (fun x => key x == p) hk,
        @List.filter_cons_of_pos _ (fun x => !(key x == p)) a rest (by simpa using hk)]
      rw [ih hn.2]

theorem filter_key_eq_self {α : Type} (key : α → String) (p : String)
    (l : List α) (h : l.any (fun x => key x == p) = false) :
    l.filter (fun x => !(key x == p)) = l := by
  refine List.filter_eq_self.mpr ?_
  intro x hx
  have := List.any_eq_false.mp h x hx
  simpa using this

theorem deleteNodeRow_char (db : DB) (p : String) (h : idsNodup db) :
    (deleteNodeRow db p).folders = db.folders.filter (fun f => !(f.id == p)) ∧
    (deleteNodeRow db p).files = db.files.filter (fun f => !(f.id == p)) ∧
    (deleteNodeRow db p).parentage = db.parentage ∧
    (deleteNodeRow db p).metadata = db.metadata := by
  have hn := h
  rw [idsNodup, List.nodup_append] at hn
  unfold deleteNodeRow
  by_cases hfo : db.folders.any (fun f => f.id == p)
  · rw [if_pos hfo]
    have hfi : db.files.any (fun f => f.id == p) = false := by
      rcases List.any_eq_true.mp hfo with ⟨f, hf, hfp⟩
      refine List.any_eq_false.mpr (fun x hx hxp => ?_)
      have hxf : x.id = f.id := by
        have h1 : x.id = p := by simpa using hxp
        have h2 : f.id = p := by simpa using hfp
        rw [h1, h2]
      exact hn.2.2 (List.mem_map_of_mem _ hf)
        (hxf ▸ List.mem_map_of_mem (fun f => f.id) hx)
    refine ⟨eraseP_key_eq_filter (fun f => f.id) p db.folders hn.1, ?_, rfl, rfl⟩
    exact (filter_key_eq_self (fun f => f.id) p db.files hfi).symm
  · rw [if_neg hfo]
    have hfo' : db.folders.any (fun f => f.id == p) = false :=
      Bool.of_not_eq_true hfo
    by_cases hfi : db.files.any (fun f => f.id == p)
    · rw [if_pos hfi]
      refine ⟨(filter_key_eq_self (fun f => f.id) p db.folders hfo').symm,
        eraseP_key_eq_filter (fun f => f.id) p db.files hn.2.1, rfl, rfl⟩
    · rw [if_neg hfi]
      exact ⟨(filter_key_eq_self (fun f => f.id) p db.folders hfo').symm,
        (filter_key_eq_self (fun f => f.id) p db.files
          (Bool.of_not_eq_true hfi)).symm, rfl, rfl⟩

theorem idsNodup_deleteNodeRow (db : DB) (p : String) (h : idsNodup db) :
    idsNodup (deleteNodeRow db p) := by
  obtain ⟨h1, h2, -, -⟩ := deleteNodeRow_char db p h
  rw [idsNodup, h1, h2]
  refine List.Sublist.nodup ?_ h
  exact List.Sublist.append
    (List.Sublist.map _ (List.filter_sublist _))
    (List.Sublist.map _ (List.filter_sublist _))

theorem foldl_deleteNodeRow_char (purged : List String) :
    ∀ db : DB, idsNodup db →
      (purged.foldl deleteNodeRow db).folders
          = db.folders.filter (fun f => !(purged.contains f.id)) ∧
      (purged.foldl deleteNodeRow db).files
          = db.files.filter (fun f => !(purged.contains f.id)) ∧
      (purged.foldl deleteNodeRow db).parentage = db.parentage ∧
      (purged.foldl deleteNodeRow db).metadata = db.metadata := by
  induction purged with
  | nil =>
    intro db _
    refine ⟨?_, ?_, rfl, rfl⟩ <;>
      exact (List.filter_eq_self.mpr (fun x _ => by simp)).symm
  | cons p rest ih =>
    intro db h
    obtain ⟨h1, h2, h3, h4⟩ := deleteNodeRow_char db p h
    obtain ⟨g1, g2, g3, g4⟩ := ih (deleteNodeRow db p) (idsNodup_deleteNodeRow db p h)
    rw [List.foldl_cons] at *
    refine ⟨?_, ?_, g3.trans h3, g4.trans h4⟩
    · rw [g1, h1, List.filter_filter]
      refine List.filter_congr (fun x _ => ?_)
      by_cases hx : x.id = p <;> by_cases hr : x.id ∈ rest <;>
        simp [List.contains_cons, hx, hr]
    · rw [g2, h2, List.filter_filter]
      refine List.filter_congr (fun x _ => ?_)
      by_cases hx : x.id = p <;> by_cases hr : x.id ∈ rest <;>
        simp [List.contains_cons, hx, hr]

/-! ### Parentage-rewrite lemmas -/

theorem mem_insertOrIgnore (x row : String × String) (t : List (String × String)) :
    x ∈ insertOrIgnore row t ↔ x ∈ t ∨ x = row := by
  unfold insertOrIgnore
  split
  · rename_i h
    have hrow : row ∈ t := by simpa using h
    constructor
    · exact Or.inl
    · rintro (hx | rfl)
      · exact hx
      · exact hrow
  · simp

theorem nodup_insertOrIgnore (row : String × String) (t : List (String × String))
    (h : t.Nodup) : (insertOrIgnore row t).Nodup := by
  unfold insertOrIgnore
  split
  · exact h
  · rename_i hc
    rw [List.nodup_append]
    refine ⟨h, List.nodup_singleton row, ?_⟩
    intro a ha hb
    rw [List.mem_singleton] at hb
    subst hb
    exact (by simpa using hc : a ∉ t) ha

theorem mem_foldl_insertOrIgnore (c : String) (ps : List String) :
    ∀ (t : List (String × String)) (x : String × String),
      x ∈ ps.foldl (fun a p => insertOrIgnore (p, c) a) t
        ↔ x ∈ t ∨ ∃ p ∈ ps, x = (p, c) := by
  induction ps with
  | nil => simp
  | cons p rest ih =>
    intro t x
    rw [List.foldl_cons, ih, mem_insertOrIgnore]
    constructor
    · rintro ((hx | rfl) | ⟨q, hq, rfl⟩)
      · exact Or.inl hx
      · exact Or.inr ⟨p, by simp⟩
      · exact Or.inr ⟨q, List.mem_cons_of_mem _ hq, rfl⟩
    · rintro (hx | ⟨q, hq, rfl⟩)
      · exact Or.inl (Or.inl hx)
      · rcases List.mem_cons.mp hq with rfl | hq'
        · exact Or.inl (Or.inr rfl)
        · exact Or.inr ⟨q, hq', rfl⟩

theorem nodup_foldl_insertOrIgnore (c : String) (ps : List String) :
    ∀ t : List (String × String), t.Nodup →
      (ps.foldl (fun a p => insertOrIgnore (p, c) a) t).Nodup := by
  induction ps with
  | nil => exact fun t h => h
  | cons p rest ih =>
    intro t h
    rw [List.foldl_cons]
    exact ih _ (nodup_insertOrIgnore _ _ h)

theorem mem_applyEdgeInserts (pairs : List (String × List String)) :
    ∀ (t : List (String × String)) (x : String × String),
      x ∈ applyEdgeInserts pairs t
        ↔ x ∈ t ∨ ∃ rel ∈ pairs, rel.1 = x.2 ∧ x.1 ∈ rel.2 := by
  induction pairs with
  | nil => simp [applyEdgeInserts]
  | cons rel rest ih =>
    intro t x
    unfold applyEdgeInserts
    rw [List.foldl_cons]
    have := ih (rel.2.foldl (fun a p => insertOrIgnore (p, rel.1) a) t) x
    unfold applyEdgeInserts at this
    rw [this, mem_foldl_insertOrIgnore]
    constructor
    · rintro ((hx | ⟨p, hp, rfl⟩) | ⟨rel', hrel', h1, h2⟩)
      · exact Or.inl hx
      · exact Or.inr ⟨rel, by simp, rfl, hp⟩
      · exact Or.inr ⟨rel', List.mem_cons_of_mem _ hrel', h1, h2⟩
    · rintro (hx | ⟨rel', hrel', h1, h2⟩)
      · exact Or.inl (Or.inl hx)
      · rcases List.mem_cons.mp hrel' with rfl | hr
        · exact Or.inl (Or.inr ⟨x.1, h2, Prod.ext rfl h1.symm⟩)
        · exact Or.inr ⟨rel', hr, h1, h2⟩

theorem nodup_applyEdgeInserts (pairs : List (String × List String)) :
    ∀ t : List (String × String), t.Nodup → (applyEdgeInserts pairs t).Nodup := by
  induction pairs with
  | nil => exact fun t h => h
  | cons rel rest ih =>
    intro t h
    unfold applyEdgeInserts
    rw [List.foldl_cons]
    have := ih (rel.2.foldl (fun a p => insertOrIgnore (p, rel.1) a) t)
      (nodup_foldl_insertOrIgnore _ _ t h)
    unfold applyEdgeInserts at this
    exact this

/-! ### Upserter-loop lemmas -/

/-- The `(child id, parents)` pair a record contributes to `parent_pairs`
(meaningful when the record's id and parents keys are present). -/
def rawPair (r : RawNode) : String × List String :=
  (r.id.getD "", r.parents.getD [])

theorem folderStep_ok_pairs (now : Nat) (s : FolderLoopState) (r : RawNode)
    (s' : FolderLoopState) (h : folderStep now s r = .ok s') :
    r.id ≠ none ∧ r.parents ≠ none ∧ s'.pairs = s.pairs ++ [rawPair r] := by
  unfold folderStep at h
  cases hid : r.id with
  | none => rw [hid] at h; exact absurd h (by simp [getItem_none, exBind_error])
  | some i =>
  rw [hid, getItem_some, exBind_ok] at h
  cases hcd : r.createdDate with
  | none => rw [hcd] at h; exact absurd h (by simp [getItem_none, exBind_error])
  | some cd =>
  rw [hcd, getItem_some, exBind_ok] at h
  cases hmd : r.modifiedDate with
  | none => rw [hmd] at h; exact absurd h (by simp [getItem_none, exBind_error])
  | some md =>
  rw [hmd, getItem_some, exBind_ok] at h
  cases hst : r.status with
  | none => rw [hst] at h; exact absurd h (by simp [getItem_none, exBind_error])
  | some st =>
  rw [hst, getItem_some, exBind_ok] at h
  cases hps : r.parents with
  | none => rw [hps] at h; exact absurd h (by simp [getItem_none, exBind_error])
  | some ps =>
  rw [hps, getItem_some, exBind_ok] at h
  refine ⟨by simp [hid], by simp [hps], ?_⟩
  rw [Except.ok.injEq] at h
  subst h
  split
  · simp [rawPair, hid, hps]
  · split <;> simp [rawPair, hid, hps]

theorem fileStep_ok_pairs (now : Nat) (s : FileLoopState) (r : RawNode)
    (s' : FileLoopState) (h : fileStep now s r = .ok s') :
    r.id ≠ none ∧ r.parents ≠ none ∧ s'.pairs = s.pairs ++ [rawPair r] := by
  unfold fileStep at h
  cases hcp : r.contentProperties with
  | none =>
    rw [hcp] at h
    cases hid : r.id with
    | none => rw [hid] at h; exact absurd h (by simp [getItem_none, exBind_error])
    | some i =>
    rw [hid, getItem_some, exBind_ok] at h
    cases hnm : r.name with
    | none => rw [hnm] at h; exact absurd h (by simp [getItem_none, exBind_error])
    | some nm =>
    rw [hnm, getItem_some, exBind_ok] at h
    cases hcd : r.createdDate with
    | none => rw [hcd] at h; exact absurd h (by simp [getItem_none, exBind_error])
    | some cd =>
    rw [hcd, getItem_some, exBind_ok] at h
    cases hmd : r.modifiedDate with
    | none => rw [hmd] at h; exact absurd h (by simp [getItem_none, exBind_error])
    | some md =>
    rw [hmd, getItem_some, exBind_ok] at h
    rw [show (getItem "md5" (ContentProps.mk (some EMPTY_MD5) (some 0)).md5)
        = .ok EMPTY_MD5 from rfl, exBind_ok] at h
    rw [show (getItem "size" (ContentProps.mk (some EMPTY_MD5) (some 0)).size)
        = .ok (0 : Int) from rfl, exBind_ok] at h
    cases hst : r.status with
    | none => rw [hst] at h; exact absurd h (by simp [getItem_none, exBind_error])
    | some st =>
    rw [hst, getItem_some, exBind_ok] at h
    cases hps : r.parents with
    | none => rw [hps] at h; exact absurd h (by simp [getItem_none, exBind_error])
    | some ps =>
    rw [hps, getItem_some, exBind_ok] at h
    refine ⟨by simp [hid], by simp [hps], ?_⟩
    rw [Except.ok.injEq] at h
    subst h
    split
    · simp [rawPair, hid, hps]
    · split <;> simp [rawPair, hid, hps]
  | some p =>
    rw [hcp] at h
    cases hid : r.id with
    | none => rw [hid] at h; exact absurd h (by simp [getItem_none, exBind_error])
    | some i =>
    rw [hid, getItem_some, exBind_ok] at h
    cases hnm : r.name with
    | none => rw [hnm] at h; exact absurd h (by simp [getItem_none, exBind_error])
    | some nm =>
    rw [hnm, getItem_some, exBind_ok] at h
    cases hcd : r.createdDate with
    | none => rw [hcd] at h; exact absurd h (by simp [getItem_none, exBind_error])
    | some cd =>
    rw [hcd, getItem_some, exBind_ok] at h
    cases hmd : r.modifiedDate with
    | none => rw [hmd] at h; exact absurd h (by simp [getItem_none, exBind_error])
    | some md =>
    rw [hmd, getItem_some, exBind_ok] at h
    cases h5 : p.md5 with
    | none => rw [h5] at h; exact absurd h (by simp [getItem_none, exBind_error])
    | some v5 =>
    rw [h5, getItem_some, exBind_ok] at h
    cases hsz : p.size with
    | none => rw [hsz] at h; exact absurd h (by simp [getItem_none, exBind_error])
    | some sz =>
    rw [hsz, getItem_some, exBind_ok] at h
    cases hst : r.status with
    | none => rw [hst] at h; exact absurd h (by simp [getItem_none, exBind_error])
    | some st =>
    rw [hst, getItem_some, exBind_ok] at h
    cases hps : r.parents with
    | none => rw [hps] at h; exact absurd h (by simp [getItem_none, exBind_error])
    | some ps =>
    rw [hps, getItem_some, exBind_ok] at h
    refine ⟨by simp [hid], by simp [hps], ?_⟩
    rw [Except.ok.injEq] at h
    subst h
    split
    · simp [rawPair, hid, hps]
    · split <;> simp [rawPair, hid, hps]

theorem foldersLoop_ok_pairs (now : Nat) (batch : List RawNode) :
    ∀ s0 s : FolderLoopState, foldersLoop now s0 batch = .ok s →
      s.pairs = s0.pairs ++ batch.map rawPair ∧
      ∀ r ∈ batch, r.id ≠ none ∧ r.parents ≠ none := by
  induction batch with
  | nil =>
    intro s0 s h
    rw [show foldersLoop now s0 [] = .ok s0 from rfl, Except.ok.injEq] at h
    subst h
    simp
  | cons r rest ih =>
    intro s0 s h
    rw [show foldersLoop now s0 (r :: rest)
        = (folderStep now s0 r >>= fun s1 => foldersLoop now s1 rest) from rfl] at h
    cases hstep : folderStep now s0 r with
    | error e => rw [hstep, exBind_error] at h; exact absurd h (by simp)
    | ok s1 =>
      rw [hstep, exBind_ok] at h
      obtain ⟨hid, hps, hpairs⟩ := folderStep_ok_pairs now s0 r s1 hstep
      obtain ⟨ih1, ih2⟩ := ih s1 s h
      refine ⟨by rw [ih1, hpairs, List.map_cons, List.append_assoc, List.singleton_append], ?_⟩
      intro r' hr'
      rcases List.mem_cons.mp hr' with rfl | hr''
      · exact ⟨hid, hps⟩
      · exact ih2 r' hr''

theorem filesLoop_ok_pairs (now : Nat) (batch : List RawNode) :
    ∀ s0 s : FileLoopState, filesLoop now s0 batch = .ok s →
      s.pairs = s0.pairs ++ batch.map rawPair ∧
      ∀ r ∈ batch, r.id ≠ none ∧ r.parents ≠ none := by
  induction batch with
  | nil =>
    intro s0 s h
    rw [show filesLoop now s0 [] = .ok s0 from rfl, Except.ok.injEq] at h
    subst h
    simp
  | cons r rest ih =>
    intro s0 s h
    rw [show filesLoop now s0 (r :: rest)
        = (fileStep now s0 r >>= fun s1 => filesLoop now s1 rest) from rfl] at h
    cases hstep : fileStep now s0 r with
    | error e => rw [hstep, exBind_error] at h; exact absurd h (by simp)
    | ok s1 =>
      rw [hstep, exBind_ok] at h
      obtain ⟨hid, hps, hpairs⟩ := fileStep_ok_pairs now s0 r s1 hstep
      obtain ⟨ih1, ih2⟩ := ih s1 s h
      refine ⟨by rw [ih1, hpairs, List.map_cons, List.append_assoc, List.singleton_append], ?_⟩
      intro r' hr'
      rcases List.mem_cons.mp hr' with rfl | hr''
      · exact ⟨hid, hps⟩
      · exact ih2 r' hr''

/-- The ids re-subscripted from the original payload by the edge-delete
loop (`f['id']` for each record of the batch). -/
def batchIds (batch : List RawNode) : List String :=
  batch.map (fun r => r.id.getD "")

theorem mapM_getId (batch : List RawNode) (h : ∀ r ∈ batch, r.id ≠ none) :
    batch.mapM (fun f => getItem "id" f.id) = .ok (batchIds batch) := by
  induction batch with
  | nil => rfl
  | cons r rest ih =>
    rw [List.mapM_cons]
    cases hid : r.id with
    | none => exact absurd hid (h r (by simp))
    | some i =>
      rw [getItem_some]
      rw [ih (fun r' hr' => h r' (List.mem_cons_of_mem _ hr'))]
      simp only [batchIds, List.map_cons, hid, Option.getD_some]
      rfl

theorem commitFolders_none (cur orig : List FolderRow) (logs : List LogEntry) :
    commitFolders none cur orig logs = .ok (cur, logs) := rfl

theorem commitFolders_integrity (cur orig : List FolderRow) (logs : List LogEntry) :
    commitFolders (some .integrityError) cur orig logs
      = .ok (orig, logs ++ [⟨.warning, "Error inserting folders."⟩]) := rfl

theorem commitFiles_none (cur orig : List FileRow) :
    commitFiles none cur orig = .ok (cur, ([] : List LogEntry)) := rfl

theorem commitFiles_value (cur orig : List FileRow) :
    commitFiles (some .valueError) cur orig
      = .ok (orig, [⟨.error, "Error inserting files."⟩]) := rfl

theorem commitFiles_integrity (cur orig : List FileRow) :
    commitFiles (some .integrityError) cur orig = .error .integrityError := rfl

theorem insert_folders_eval_none (now : Nat) (db : DB) (batch : List RawNode)
    (s : FolderLoopState)
    (hs : foldersLoop now ⟨0, 0, 0, db.folders, [], []⟩ batch = .ok s) :
    insert_folders now none db batch =
      .ok ({ db with folders := s.cur,
                     parentage := applyEdgeInserts s.pairs
                       (db.parentage.filter
                         (fun e => !((batchIds batch).contains e.2))) },
           s.logs ++ folderSummary s.ins s.dup s.upd) := by
  have hpres := (foldersLoop_ok_pairs now batch _ s hs).2
  unfold insert_folders
  rw [hs, exBind_ok, commitFolders_none, exBind_ok,
    mapM_getId batch (fun r hr => (hpres r hr).1), exBind_ok]

theorem insert_folders_eval_integrity (now : Nat) (db : DB)
    (batch : List RawNode) (s : FolderLoopState)
    (hs : foldersLoop now ⟨0, 0, 0, db.folders, [], []⟩ batch = .ok s) :
    insert_folders now (some .integrityError) db batch =
      .ok ({ db with folders := db.folders,
                     parentage := applyEdgeInserts s.pairs
                       (db.parentage.filter
                         (fun e => !((batchIds batch).contains e.2))) },
           (s.logs ++ [⟨.warning, "Error inserting folders."⟩])
             ++ folderSummary s.ins s.dup s.upd) := by
  have hpres := (foldersLoop_ok_pairs now batch _ s hs).2
  unfold insert_folders
  rw [hs, exBind_ok, commitFolders_integrity, exBind_ok,
    mapM_getId batch (fun r hr => (hpres r hr).1), exBind_ok]

theorem insert_files_eval_none (now : Nat) (db : DB) (batch : List RawNode)
    (s : FileLoopState)
    (hs : filesLoop now ⟨0, 0, 0, db.files, []⟩ batch = .ok s) :
    insert_files now none db batch =
      .ok ({ db with files := s.cur,
                     parentage := applyEdgeInserts s.pairs
                       (db.parentage.filter
                         (fun e => !((batchIds batch).contains e.2))) },
           [] ++ fileSummary s.ins s.dup s.upd) := by
  have hpres := (filesLoop_ok_pairs now batch _ s hs).2
  unfold insert_files
  rw [hs, exBind_ok, commitFiles_none, exBind_ok,
    mapM_getId batch (fun r hr => (hpres r hr).1), exBind_ok]

theorem insert_files_eval_value (now : Nat) (db : DB) (batch : List RawNode)
    (s : FileLoopState)
    (hs : filesLoop now ⟨0, 0, 0, db.files, []⟩ batch = .ok s) :
    insert_files now (some .valueError) db batch =
      .ok ({ db with files := db.files,
                     parentage := applyEdgeInserts s.pairs
                       (db.parentage.filter
                         (fun e => !((batchIds batch).contains e.2))) },
           [⟨.error, "Error inserting files."⟩] ++ fileSummary s.ins s.dup s.upd) := by
  have hpres := (filesLoop_ok_pairs now batch _ s hs).2
  unfold insert_files
  rw [hs, exBind_ok, commitFiles_value, exBind_ok,
    mapM_getId batch (fun r hr => (hpres r hr).1), exBind_ok]

theorem insert_files_eval_integrity (now : Nat) (db : DB)
    (batch : List RawNode) (s : FileLoopState)
    (hs : filesLoop now ⟨0, 0, 0, db.files, []⟩ batch = .ok s) :
    insert_files now (some .integrityError) db batch = .error .integrityError := by
  unfold insert_files
  rw [hs, exBind_ok, commitFiles_integrity, exBind_error]

theorem insert_folders_ok_elim (now : Nat) (ce : Option PyErr) (db : DB)
    (batch : List RawNode) (db' : DB) (logs : List LogEntry)
    (h : insert_folders now ce db batch = .ok (db', logs)) :
    (∀ r ∈ batch, r.id ≠ none ∧ r.parents ≠ none) ∧
    db'.parentage = applyEdgeInserts (batch.map rawPair)
      (db.parentage.filter (fun e => !((batchIds batch).contains e.2))) ∧
    db'.files = db.files ∧ db'.metadata = db.metadata := by
  cases hs : foldersLoop now ⟨0, 0, 0, db.folders, [], []⟩ batch with
  | error e =>
    unfold insert_folders at h
    rw [hs, exBind_error] at h
    exact absurd h (by simp)
  | ok s =>
  obtain ⟨hpairs, hpres⟩ := foldersLoop_ok_pairs now batch _ s hs
  have hpairs' : s.pairs = batch.map rawPair := by simpa using hpairs
  cases ce with
  | none =>
    rw [insert_folders_eval_none now db batch s hs, Except.ok.injEq,
      Prod.mk.injEq] at h
    obtain ⟨hdb, -⟩ := h
    subst hdb
    exact ⟨hpres, by rw [← hpairs'], rfl, rfl⟩
  | some e =>
    cases e with
    | integrityError =>
      rw [insert_folders_eval_integrity now db batch s hs, Except.ok.injEq,
        Prod.mk.injEq] at h
      obtain ⟨hdb, -⟩ := h
      subst hdb
      exact ⟨hpres, by rw [← hpairs'], rfl, rfl⟩
    | keyError k =>
      unfold insert_folders at h
      rw [hs, exBind_ok] at h
      rw [show commitFolders (some (.keyError k)) s.cur db.folders s.logs
          = .error (.keyError k) from rfl, exBind_error] at h
      exact absurd h (by simp)
    | valueError =>
      unfold insert_folders at h
      rw [hs, exBind_ok] at h
      rw [show commitFolders (some .valueError) s.cur db.folders s.logs
          = .error .valueError from rfl, exBind_error] at h
      exact absurd h (by simp)

theorem insert_files_ok_elim (now : Nat) (ce : Option PyErr) (db : DB)
    (batch : List RawNode) (db' : DB) (logs : List LogEntry)
    (h : insert_files now ce db batch = .ok (db', logs)) :
    (∀ r ∈ batch, r.id ≠ none ∧ r.parents ≠ none) ∧
    db'.parentage = applyEdgeInserts (batch.map rawPair)
      (db.parentage.filter (fun e => !((batchIds batch).contains e.2))) ∧
    db'.folders = db.folders ∧ db'.metadata = db.metadata := by
  cases hs : filesLoop now ⟨0, 0, 0, db.files, []⟩ batch with
  | error e =>
    unfold insert_files at h
    rw [hs, exBind_error] at h
    exact absurd h (by simp)
  | ok s =>
  obtain ⟨hpairs, hpres⟩ := filesLoop_ok_pairs now batch _ s hs
  have hpairs' : s.pairs = batch.map rawPair := by simpa using hpairs
  cases ce with
  | none =>
    rw [insert_files_eval_none now db batch s hs, Except.ok.injEq,
      Prod.mk.injEq] at h
    obtain ⟨hdb, -⟩ := h
    subst hdb
    exact ⟨hpres, by rw [← hpairs'], rfl, rfl⟩
  | some e =>
    cases e with
    | valueError =>
      rw [insert_files_eval_value now db batch s hs, Except.ok.injEq,
        Prod.mk.injEq] at h
      obtain ⟨hdb, -⟩ := h
      subst hdb
      exact ⟨hpres, by rw [← hpairs'], rfl, rfl⟩
    | integrityError =>
      rw [insert_files_eval_integrity now db batch s hs] at h
      exact absurd h (by simp)
    | keyError k =>
      unfold insert_files at h
      rw [hs, exBind_ok] at h
      rw [show commitFiles (some (.keyError k)) s.cur db.files
          = .error (.keyError k) from rfl, exBind_error] at h
      exact absurd h (by simp)

/-! ### Claim theorems -/

/-- C6: for every token X, after `set_checkpoint(X)` a `get_checkpoint()`
returns X; after a subsequent `set_checkpoint(Y)` it returns Y with no
second row for the checkpoint key (given the keyed-table invariant that
at most one row carries the key); and `set_checkpoint` is idempotent —
repeating it with the same token leaves the persisted state unchanged. -/
theorem checkpoint_roundtrip (db : DB) (X Y : String)
    (h : (db.metadata.filter (fun kv => kv.1 == CHECKPOINT_KEY)).length ≤ 1) :
    get_checkpoint (set_checkpoint db X) = some X ∧
    get_checkpoint (set_checkpoint (set_checkpoint db X) Y) = some Y ∧
    ((set_checkpoint (set_checkpoint db X) Y).metadata.filter
        (fun kv => kv.1 == CHECKPOINT_KEY)).length = 1 ∧
    set_checkpoint (set_checkpoint db X) X = set_checkpoint db X := by
  refine ⟨?_, ?_, ?_, ?_⟩
  · unfold get_checkpoint set_checkpoint
    rw [show (({ db with metadata := metaMerge CHECKPOINT_KEY X db.metadata } : DB).metadata)
        = metaMerge CHECKPOINT_KEY X db.metadata from rfl]
    rw [metaMerge_find]
    rfl
  · unfold get_checkpoint set_checkpoint
    show Option.map (fun kv => kv.2)
      ((metaMerge CHECKPOINT_KEY Y (metaMerge CHECKPOINT_KEY X db.metadata)).find?
        (fun kv => kv.1 == CHECKPOINT_KEY)) = some Y
    rw [metaMerge_find]
    rfl
  · unfold set_checkpoint
    exact metaMerge_filter_length CHECKPOINT_KEY Y _
      (le_of_eq (metaMerge_filter_length CHECKPOINT_KEY X db.metadata h))
  · unfold set_checkpoint
    rw [metaMerge_idem]

/-- Witness for C6 at the empty store with tokens "X" and "Y". -/
theorem checkpoint_roundtrip_witness :
    ((DB.empty.metadata.filter (fun kv => kv.1 == CHECKPOINT_KEY)).length ≤ 1) ∧
    (get_checkpoint (set_checkpoint DB.empty "X") = some "X" ∧
     get_checkpoint (set_checkpoint (set_checkpoint DB.empty "X") "Y") = some "Y" ∧
     ((set_checkpoint (set_checkpoint DB.empty "X") "Y").metadata.filter
         (fun kv => kv.1 == CHECKPOINT_KEY)).length = 1 ∧
     set_checkpoint (set_checkpoint DB.empty "X") "X" = set_checkpoint DB.empty "X") :=
  ⟨by decide, checkpoint_roundtrip DB.empty "X" "Y" (by decide)⟩

/-- C9: `max_age()` is `now - max(updated over all nodes)` in fractional
days (86400 base time units per day), and a zero duration on a store
with no nodes. -/
theorem max_age_spec (now : Nat) (db : DB) :
    (db.folders = [] ∧ db.files = [] → max_age now db = 0) ∧
    (db.folders ≠ [] ∨ db.files ≠ [] →
      ∃ m ∈ allUpdated db, (∀ u ∈ allUpdated db, u ≤ m) ∧
        max_age now db = ((now : ℚ) - (m : ℚ)) / 86400) := by
  constructor
  · rintro ⟨h1, h2⟩
    unfold max_age
    rw [show allUpdated db = [] by simp [allUpdated, h1, h2]]
    rfl
  · intro hne
    unfold max_age
    cases hm : (allUpdated db).max? with
    | none =>
      rw [List.max?_eq_none_iff] at hm
      unfold allUpdated at hm
      rw [List.append_eq_nil] at hm
      rcases hne with hne | hne
      · exact absurd (List.map_eq_nil_iff.mp hm.1) hne
      · exact absurd (List.map_eq_nil_iff.mp hm.2) hne
    | some m =>
      obtain ⟨hmem, hle⟩ := List.max?_eq_some_iff'.mp hm
      exact ⟨m, hmem, hle, rfl⟩

/-- Witness for C9: the empty store gives age 0, and a store holding one
folder (updated 43200) and one file (updated 21600) gives the age of the
newer of the two, half a day before `now = 86400`. -/
theorem max_age_spec_witness :
    (DB.empty.folders = [] ∧ DB.empty.files = [] ∧ max_age 86400 DB.empty = 0) ∧
    max_age 86400
      ⟨[⟨"f1", none, "c", "m", "AVAILABLE", 43200⟩],
       [⟨"a1", "n", "c", "m", "h", 0, "AVAILABLE", 21600⟩], [], []⟩ = 1 / 2 := by
  constructor
  · exact ⟨rfl, rfl, (max_age_spec 86400 DB.empty).1 ⟨rfl, rfl⟩⟩
  · obtain ⟨m, hmem, hle, heq⟩ :=
      (max_age_spec 86400
        ⟨[⟨"f1", none, "c", "m", "AVAILABLE", 43200⟩],
         [⟨"a1", "n", "c", "m", "h", 0, "AVAILABLE", 21600⟩], [], []⟩).2
        (Or.inl (by simp))
    have hm : m ∈ ([43200, 21600] : List Nat) := by
      simpa [allUpdated] using hmem
    rw [List.mem_cons, List.mem_singleton] at hm
    rcases hm with rfl | rfl
    · rw [heq]; norm_num
    · exact absurd (hle 43200 (by simp [allUpdated])) (by omega)

/-- C8: `remove_purged` deletes the matching node row of every id that
has one (under the keyed-store invariant), touches nothing else, is a
no-op on `[]` and on an id with no matching row (no error raised —
the operation is total), and its single logged count is the length of
the input list, not the number of rows removed. -/
theorem remove_purged_spec (db : DB) (purged : List String)
    (h : idsNodup db) :
    ((remove_purged db purged).1.folders
        = db.folders.filter (fun f => !(purged.contains f.id)) ∧
     (remove_purged db purged).1.files
        = db.files.filter (fun f => !(purged.contains f.id)) ∧
     (remove_purged db purged).1.parentage = db.parentage ∧
     (remove_purged db purged).1.metadata = db.metadata) ∧
    (remove_purged db purged).2
      = [⟨.info, "Purged " ++ toString purged.length ++ " nodes."⟩] ∧
    remove_purged db [] = (db, [⟨.info, "Purged 0 nodes."⟩]) ∧
    ((∀ f ∈ db.folders, f.id ≠ "nonexistent-id") →
     (∀ f ∈ db.files, f.id ≠ "nonexistent-id") →
     (remove_purged db ["nonexistent-id"]).1 = db) := by
  refine ⟨foldl_deleteNodeRow_char purged db h, rfl, rfl, ?_⟩
  intro hfo hfi
  show deleteNodeRow db "nonexistent-id" = db
  unfold deleteNodeRow
  rw [if_neg, if_neg]
  · intro hc
    rcases List.any_eq_true.mp hc with ⟨f, hf, hp⟩
    exact hfi f hf (by simpa using hp)
  · intro hc
    rcases List.any_eq_true.mp hc with ⟨f, hf, hp⟩
    exact hfo f hf (by simpa using hp)

/-- Witness for C8 at a store holding one folder and two files, purging
one present id, one absent id and one id of the other kind. -/
theorem remove_purged_spec_witness :
    idsNodup ⟨[⟨"f1", none, "c", "m", "AVAILABLE", 1⟩],
      [⟨"a1", "n", "c", "m", "h", 0, "AVAILABLE", 2⟩,
       ⟨"a2", "n", "c", "m", "h", 0, "AVAILABLE", 3⟩], [("f1", "a1")], []⟩ ∧
    ((remove_purged ⟨[⟨"f1", none, "c", "m", "AVAILABLE", 1⟩],
        [⟨"a1", "n", "c", "m", "h", 0, "AVAILABLE", 2⟩,
         ⟨"a2", "n", "c", "m", "h", 0, "AVAILABLE", 3⟩], [("f1", "a1")], []⟩
        ["a1", "zz", "f1"]).1.folders = [] ∧
     (remove_purged ⟨[⟨"f1", none, "c", "m", "AVAILABLE", 1⟩],
        [⟨"a1", "n", "c", "m", "h", 0, "AVAILABLE", 2⟩,
         ⟨"a2", "n", "c", "m", "h", 0, "AVAILABLE", 3⟩], [("f1", "a1")], []⟩
        ["a1", "zz", "f1"]).2
       = [⟨.info, "Purged 3 nodes."⟩]) := by
  have h := remove_purged_spec
    ⟨[⟨"f1", none, "c", "m", "AVAILABLE", 1⟩],
     [⟨"a1", "n", "c", "m", "h", 0, "AVAILABLE", 2⟩,
      ⟨"a2", "n", "c", "m", "h", 0, "AVAILABLE", 3⟩], [("f1", "a1")], []⟩
    ["a1", "zz", "f1"] (by unfold idsNodup; decide)
  refine ⟨by unfold idsNodup; decide, ?_, ?_⟩
  · rw [h.1.1]; decide
  · rw [h.2.1]; decide

/-- C2 counterexample: `insert_node` does not drop a PENDING record.
On a PENDING FILE record, `insert_nodes` (which checks `status` first)
stores nothing, while `insert_node` (which dispatches on `kind` alone)
routes it to `insert_files` and stores one file row. -/
theorem insert_node_pending_not_dropped :
    insert_nodes 7 none none DB.empty [pendingFile] = .ok (DB.empty, []) ∧
    (insert_node 7 none DB.empty pendingFile).map
      (fun x => x.1.files.length) = .ok 1 := by
  constructor <;> decide

/-- C2 amended: `insert_node` applies the kind-based rules of
`insert_nodes` — a FILE or FOLDER record is routed to the corresponding
single-element batch call, an ASSET record is dropped silently, any
other kind is dropped with a warning — but it never examines `status`:
the routing below holds for every record, PENDING ones included, so a
PENDING FILE or FOLDER is upserted rather than dropped. -/
theorem insert_node_dispatch (now : Nat) (ce : Option PyErr) (db : DB)
    (node : RawNode) (k : String) (hk : node.kind = some k) :
    (k = "FILE" → insert_node now ce db node = insert_files now ce db [node]) ∧
    (k = "FOLDER" → insert_node now ce db node = insert_folders now ce db [node]) ∧
    (k = "ASSET" → insert_node now ce db node = .ok (db, [])) ∧
    (k ≠ "FILE" → k ≠ "FOLDER" → k ≠ "ASSET" →
      insert_node now ce db node = .ok (db, [unknownKindLog k])) := by
  unfold insert_node
  rw [hk, getItem_some, exBind_ok]
  refine ⟨?_, ?_, ?_, ?_⟩
  · rintro rfl; rfl
  · rintro rfl; rfl
  · rintro rfl; rfl
  · intro h1 h2 h3
    rw [if_neg (by simpa using h1), if_neg (by simpa using h2),
      if_pos (by simpa using h3)]

/-- Witness for C2's amended theorem: the PENDING FILE record is routed
to `insert_files` by `insert_node`. -/
theorem insert_node_dispatch_witness :
    pendingFile.kind = some "FILE" ∧
    insert_node 7 none DB.empty pendingFile
      = insert_files 7 none DB.empty [pendingFile] :=
  ⟨rfl, (insert_node_dispatch 7 none DB.empty pendingFile "FILE" rfl).1 rfl⟩

/-- C3 counterexample: an `IntegrityError` raised by the node-row commit
of `insert_files` is not caught (the guard is `except ValueError`): the
call raises back to its caller and the parentage rewrite never runs,
contradicting the claim that neither upserter raises on an integrity
conflict. -/
theorem insert_files_integrity_raises :
    insert_files 7 (some .integrityError) DB.empty [sampleFile "a1" ["P1"]]
      = .error .integrityError := by
  decide

/-- C3 amended: on a storage-layer integrity conflict at the node-row
commit, `insert_folders` does not raise — the failure is logged as a
warning, the node-row transaction is rolled back (the Folder table is
as at entry), and the parentage rewrite still executes over the
original payload; `insert_files`, whose guard catches only
`ValueError`, propagates the `IntegrityError` to its caller and the
parentage rewrite does not run. -/
theorem commit_conflict_handling :
    (∀ (now : Nat) (db : DB) (batch : List RawNode) (s : FolderLoopState),
      foldersLoop now ⟨0, 0, 0, db.folders, [], []⟩ batch = .ok s →
      ∃ db' logs,
        insert_folders now (some .integrityError) db batch = .ok (db', logs) ∧
        db'.folders = db.folders ∧
        (⟨.warning, "Error inserting folders."⟩ : LogEntry) ∈ logs ∧
        db'.parentage = applyEdgeInserts (batch.map rawPair)
          (db.parentage.filter (fun e => !((batchIds batch).contains e.2)))) ∧
    (∀ (now : Nat) (db : DB) (batch : List RawNode) (s : FileLoopState),
      filesLoop now ⟨0, 0, 0, db.files, []⟩ batch = .ok s →
      insert_files now (some .integrityError) db batch = .error .integrityError) := by
  constructor
  · intro now db batch s hs
    have hpairs : s.pairs = batch.map rawPair := by
      simpa using (foldersLoop_ok_pairs now batch _ s hs).1
    refine ⟨_, _, insert_folders_eval_integrity now db batch s hs, rfl, ?_, ?_⟩
    · simp
    · rw [hpairs]
  · intro now db batch s hs
    exact insert_files_eval_integrity now db batch s hs

/-- Witness for C3's amended theorem on singleton batches over the
empty store. -/
theorem commit_conflict_handling_witness :
    (foldersLoop 7 ⟨0, 0, 0, DB.empty.folders, [], []⟩ [sampleFolder "f1" ["P1"]]
      = .ok ⟨1, 0, 0,
          [⟨"f1", some "name-f1", "2015-01-01T00:00:00.000Z",
            "2015-01-02T00:00:00.000Z", "AVAILABLE", 7⟩],
          [("f1", ["P1"])], [⟨.debug, "folder record"⟩]⟩ ∧
     filesLoop 7 ⟨0, 0, 0, DB.empty.files, []⟩ [sampleFile "a1" ["P1"]]
      = .ok ⟨1, 0, 0,
          [⟨"a1", "name-a1", "2015-01-01T00:00:00.000Z",
            "2015-01-02T00:00:00.000Z", "abc", 5, "AVAILABLE", 7⟩],
          [("a1", ["P1"])]⟩) ∧
    (∃ db' logs,
      insert_folders 7 (some .integrityError) DB.empty [sampleFolder "f1" ["P1"]]
        = .ok (db', logs) ∧
      db'.folders = DB.empty.folders ∧
      (⟨.warning, "Error inserting folders."⟩ : LogEntry) ∈ logs ∧
      db'.parentage = applyEdgeInserts ([sampleFolder "f1" ["P1"]].map rawPair)
        (DB.empty.parentage.filter
          (fun e => !((batchIds [sampleFolder "f1" ["P1"]]).contains e.2)))) ∧
    insert_files 7 (some .integrityError) DB.empty [sampleFile "a1" ["P1"]]
      = .error .integrityError :=
  ⟨⟨by decide, by decide⟩,
   commit_conflict_handling.1 7 DB.empty [sampleFolder "f1" ["P1"]]
     ⟨1, 0, 0,
      [⟨"f1", some "name-f1", "2015-01-01T00:00:00.000Z",
        "2015-01-02T00:00:00.000Z", "AVAILABLE", 7⟩],
      [("f1", ["P1"])], [⟨.debug, "folder record"⟩]⟩ (by decide),
   commit_conflict_handling.2 7 DB.empty [sampleFile "a1" ["P1"]]
     ⟨1, 0, 0,
      [⟨"a1", "name-a1", "2015-01-01T00:00:00.000Z",
        "2015-01-02T00:00:00.000Z", "abc", 5, "AVAILABLE", 7⟩],
      [("a1", ["P1"])]⟩ (by decide)⟩

theorem classifyNodes_eq (nodes : List RawNode)
    (h : ∀ n ∈ nodes, n.status ≠ none ∧ (n.status = some "PENDING" ∨ n.kind ≠ none)) :
    classifyNodes nodes = .ok (fileGroup nodes, folderGroup nodes, warnGroup nodes) := by
  induction nodes with
  | nil => rfl
  | cons n rest ih =>
    have hn := h n (by simp)
    have hrest := ih (fun n' hn' => h n' (List.mem_cons_of_mem _ hn'))
    cases hst : n.status with
    | none => exact absurd hst hn.1
    | some st =>
      simp only [classifyNodes]
      rw [hst, getItem_some, exBind_ok]
      by_cases hpending : st = "PENDING"
      · subst hpending
        rw [if_pos (by simp)]
        rw [hrest]
        have e1 : fileGroup (n :: rest) = fileGroup rest := by
          simp [fileGroup, List.filter_cons, notPending, hst]
        have e2 : folderGroup (n :: rest) = folderGroup rest := by
          simp [folderGroup, List.filter_cons, notPending, hst]
        have e3 : warnGroup (n :: rest) = warnGroup rest := by
          simp [warnGroup, List.filter_cons, notPending, hst]
        rw [e1, e2, e3]
      · rw [if_neg (by simpa using fun he => hpending (by simpa using he))]
        cases hk : n.kind with
        | none =>
          rcases hn.2 with hp | hp
          · rw [hst] at hp
            exact absurd (by simpa using hp) hpending
          · exact absurd hk hp
        | some k =>
          rw [getItem_some, exBind_ok, hrest, exBind_ok]
          have hnp : notPending n = true := by
            simp [notPending, hst, hpending]
          by_cases hfile : k = "FILE"
          · subst hfile
            rw [if_pos (by simp)]
            have e1 : fileGroup (n :: rest) = n :: fileGroup rest := by
              simp [fileGroup, List.filter_cons, hnp, hk]
            have e2 : folderGroup (n :: rest) = folderGroup rest := by
              simp [folderGroup, List.filter_cons, hnp, hk]
            have e3 : warnGroup (n :: rest) = warnGroup rest := by
              simp [warnGroup, List.filter_cons, hnp, unknownKind, hk]
            rw [e1, e2, e3]
          · rw [if_neg (by simpa using hfile)]
            by_cases hfolder : k = "FOLDER"
            · subst hfolder
              rw [if_pos (by simp)]
              have e1 : fileGroup (n :: rest) = fileGroup rest := by
                simp [fileGroup, List.filter_cons, hnp, hk]
              have e2 : folderGroup (n :: rest) = n :: folderGroup rest := by
                simp [folderGroup, List.filter_cons, hnp, hk]
              have e3 : warnGroup (n :: rest) = warnGroup rest := by
                simp [warnGroup, List.filter_cons, hnp, unknownKind, hk]
              rw [e1, e2, e3]
            · rw [if_neg (by simpa using hfolder)]
              have e1 : fileGroup (n :: rest) = fileGroup rest := by
                simp [fileGroup, List.filter_cons, hnp, hk, hfile]
              have e2 : folderGroup (n :: rest) = folderGroup rest := by
                simp [folderGroup, List.filter_cons, hnp, hk, hfolder]
              by_cases hasset : k = "ASSET"
              · subst hasset
                rw [if_neg (by simp)]
                have e3 : warnGroup (n :: rest) = warnGroup rest := by
                  simp [warnGroup, List.filter_cons, hnp, unknownKind, hk]
                rw [e1, e2, e3]
              · rw [if_pos (by simpa using hasset)]
                have e3 : warnGroup (n :: rest)
                    = unknownKindLog k :: warnGroup rest := by
                  simp [warnGroup, List.filter_cons, hnp, unknownKind, hk,
                    hfile, hfolder, hasset]
                rw [e1, e2, e3]

/-- C4: `insert_nodes` partitions the batch by the `kind` tag into the
FOLDER and FILE groups in batch order, drops PENDING-status records
before ever reading `kind` and drops ASSET records silently, warns
exactly on the remaining unrecognized kinds, and upserts the folder
group before the file group; on the spec's five-record mixed batch
exactly two rows result and the only warning is for the WIDGET kind. -/
theorem insert_nodes_spec :
    (∀ (nodes : List RawNode) (now : Nat) (ce1 ce2 : Option PyErr) (db : DB),
      (∀ n ∈ nodes, n.status ≠ none ∧ (n.status = some "PENDING" ∨ n.kind ≠ none)) →
      classifyNodes nodes = .ok (fileGroup nodes, folderGroup nodes, warnGroup nodes) ∧
      insert_nodes now ce1 ce2 db nodes
        = (insert_folders now ce1 db (folderGroup nodes) >>= fun x =>
           insert_files now ce2 x.1 (fileGroup nodes) >>= fun y =>
           .ok (y.1, warnGroup nodes ++ x.2 ++ y.2))) ∧
    (insert_nodes 7 none none DB.empty fiveBatch).map
      (fun x => (x.1.folders.length, x.1.files.length,
        x.2.filter (fun l => l.level == .warning)))
      = .ok (1, 1, [unknownKindLog "WIDGET"]) := by
  constructor
  · intro nodes now ce1 ce2 db h
    refine ⟨classifyNodes_eq nodes h, ?_⟩
    unfold insert_nodes
    rw [classifyNodes_eq nodes h, exBind_ok]
  · decide

/-- Witness for C4 at the five-record mixed batch. -/
theorem insert_nodes_spec_witness :
    (∀ n ∈ fiveBatch, n.status ≠ none ∧ (n.status = some "PENDING" ∨ n.kind ≠ none)) ∧
    classifyNodes fiveBatch
      = .ok (fileGroup fiveBatch, folderGroup fiveBatch, warnGroup fiveBatch) :=
  ⟨by decide, (insert_nodes_spec.1 fiveBatch 7 none none DB.empty (by decide)).1⟩

theorem find?_append_no_match {α : Type} (l1 l2 : List α) (p : α → Bool)
    (h : ∀ x ∈ l1, ¬ p x) : (l1 ++ l2).find? p = l2.find? p := by
  rw [List.find?_append, List.find?_eq_none.mpr h, Option.none_or]

theorem map_replace_no_match (l : List FolderRow) (i : String) (f : FolderRow)
    (h : ∀ x ∈ l, x.id ≠ i) :
    l.map (fun x => if x.id == i then f else x) = l := by
  induction l with
  | nil => rfl
  | cons a rest ih =>
    rw [List.map_cons,
      if_neg (by simpa using h a (by simp)),
      ih (fun x hx => h x (List.mem_cons_of_mem _ hx))]

theorem foldersLoop_singleton (now : Nat) (s0 : FolderLoopState) (r : RawNode)
    (s1 : FolderLoopState) (h : folderStep now s0 r = .ok s1) :
    foldersLoop now s0 [r] = .ok s1 := by
  show (folderStep now s0 r >>= fun s' => foldersLoop now s' []) = .ok s1
  rw [h, exBind_ok]
  rfl

theorem filesLoop_singleton (now : Nat) (s0 : FileLoopState) (r : RawNode)
    (s1 : FileLoopState) (h : fileStep now s0 r = .ok s1) :
    filesLoop now s0 [r] = .ok s1 := by
  show (fileStep now s0 r >>= fun s' => filesLoop now s' []) = .ok s1
  rw [h, exBind_ok]
  rfl

theorem folderStep_eval_fresh (now : Nat) (s : FolderLoopState) (r : RawNode)
    (i cd md st : String) (ps : List String)
    (hid : r.id = some i) (hcd : r.createdDate = some cd)
    (hmd : r.modifiedDate = some md) (hst : r.status = some st)
    (hps : r.parents = some ps)
    (hf : s.cur.find? (fun x => x.id == i) = none) :
    folderStep now s r = .ok
      ⟨s.ins + 1, s.dup, s.upd, s.cur ++ [⟨i, r.name, cd, md, st, now⟩],
       s.pairs ++ [(i, ps)], s.logs ++ [⟨.debug, "folder record"⟩]⟩ := by
  simp only [folderStep, hid, hcd, hmd, hst, hps, getItem_some, exBind_ok, hf,
    iso_parse]

theorem folderStep_eval_dup (now : Nat) (s : FolderLoopState) (r : RawNode)
    (i cd md st : String) (ps : List String) (ef : FolderRow)
    (hid : r.id = some i) (hcd : r.createdDate = some cd)
    (hmd : r.modifiedDate = some md) (hst : r.status = some st)
    (hps : r.parents = some ps)
    (hf : s.cur.find? (fun x => x.id == i) = some ef)
    (heq : folderEq ⟨i, r.name, cd, md, st, now⟩ ef = true) :
    folderStep now s r = .ok
      ⟨s.ins, s.dup + 1, s.upd,
       s.cur.map (fun x => if x.id == i then ⟨i, r.name, cd, md, st, now⟩ else x),
       s.pairs ++ [(i, ps)], s.logs ++ [⟨.debug, "folder record"⟩]⟩ := by
  simp only [folderStep, hid, hcd, hmd, hst, hps, getItem_some, exBind_ok, hf,
    iso_parse, heq, if_true]

theorem fileStep_eval_fresh_noprops (now : Nat) (s : FileLoopState) (r : RawNode)
    (i nm cd md st : String) (ps : List String)
    (hcp : r.contentProperties = none)
    (hid : r.id = some i) (hnm : r.name = some nm) (hcd : r.createdDate = some cd)
    (hmd : r.modifiedDate = some md) (hst : r.status = some st)
    (hps : r.parents = some ps)
    (hf : s.cur.find? (fun x => x.id == i) = none) :
    fileStep now s r = .ok
      ⟨s.ins + 1, s.dup, s.upd,
       s.cur ++ [⟨i, nm, cd, md, EMPTY_MD5, 0, st, now⟩],
       s.pairs ++ [(i, ps)]⟩ := by
  simp only [fileStep, hcp, hid, hnm, hcd, hmd, hst, hps, getItem_some,
    exBind_ok, hf, iso_parse]

theorem fileStep_eval_fresh (now : Nat) (s : FileLoopState) (r : RawNode)
    (i nm cd md h5 st : String) (sz : Int) (ps : List String)
    (hcp : r.contentProperties = some ⟨some h5, some sz⟩)
    (hid : r.id = some i) (hnm : r.name = some nm) (hcd : r.createdDate = some cd)
    (hmd : r.modifiedDate = some md) (hst : r.status = some st)
    (hps : r.parents = some ps)
    (hf : s.cur.find? (fun x => x.id == i) = none) :
    fileStep now s r = .ok
      ⟨s.ins + 1, s.dup, s.upd,
       s.cur ++ [⟨i, nm, cd, md, h5, sz, st, now⟩],
       s.pairs ++ [(i, ps)]⟩ := by
  simp only [fileStep, hcp, hid, hnm, hcd, hmd, hst, hps, getItem_some,
    exBind_ok, hf, iso_parse]

theorem fileStep_eval_dup (now : Nat) (s : FileLoopState) (r : RawNode)
    (i nm cd md h5 st : String) (sz : Int) (ps : List String) (ef : FileRow)
    (hcp : r.contentProperties = some ⟨some h5, some sz⟩)
    (hid : r.id = some i) (hnm : r.name = some nm) (hcd : r.createdDate = some cd)
    (hmd : r.modifiedDate = some md) (hst : r.status = some st)
    (hps : r.parents = some ps)
    (hf : s.cur.find? (fun x => x.id == i) = some ef)
    (heq : fileEq ⟨i, nm, cd, md, h5, sz, st, now⟩ ef = true) :
    fileStep now s r = .ok
      ⟨s.ins, s.dup + 1, s.upd,
       (s.cur.eraseP (fun x => x.id == i)) ++ [⟨i, nm, cd, md, h5, sz, st, now⟩],
       s.pairs ++ [(i, ps)]⟩ := by
  simp only [fileStep, hcp, hid, hnm, hcd, hmd, hst, hps, getItem_some,
    exBind_ok, hf, iso_parse, heq, if_true]

/-- C7: a FILE record with no `contentProperties` block is stored as an
empty file — checksum `d41d8cd98f00b204e9800998ecf8427e`, size 0 — and
this is not an error path: the call returns normally and emits only
info-level summary logs. -/
theorem insert_files_empty_props (now : Nat) (db : DB) (r : RawNode)
    (i nm cd md st : String) (ps : List String)
    (hcp : r.contentProperties = none)
    (hid : r.id = some i) (hnm : r.name = some nm) (hcd : r.createdDate = some cd)
    (hmd : r.modifiedDate = some md) (hst : r.status = some st)
    (hps : r.parents = some ps)
    (hfresh : ∀ x ∈ db.files, x.id ≠ i) :
    ∃ db' logs,
      insert_files now none db [r] = .ok (db', logs) ∧
      db'.files.filter (fun x => x.id == i)
        = [⟨i, nm, cd, md, EMPTY_MD5, 0, st, now⟩] ∧
      (∀ l ∈ logs, l.level = .info) := by
  have hf : db.files.find? (fun x => x.id == i) = none :=
    List.find?_eq_none.mpr (fun x hx => by simpa using hfresh x hx)
  have hstep := fileStep_eval_fresh_noprops now ⟨0, 0, 0, db.files, []⟩ r
    i nm cd md st ps hcp hid hnm hcd hmd hst hps hf
  have hloop := filesLoop_singleton now ⟨0, 0, 0, db.files, []⟩ r _ hstep
  rw [insert_files_eval_none now db [r] _ hloop]
  refine ⟨_, _, rfl, ?_, ?_⟩
  · show (db.files ++ [(⟨i, nm, cd, md, EMPTY_MD5, 0, st, now⟩ : FileRow)]).filter
        (fun x => x.id == i) = [⟨i, nm, cd, md, EMPTY_MD5, 0, st, now⟩]
    rw [List.filter_append,
      List.filter_eq_nil_iff.mpr (fun x hx => by simpa using hfresh x hx)]
    simp
  · intro l hl
    have : l ∈ ([] : List LogEntry)
        ++ fileSummary (0 + 1) 0 0 := hl
    rw [show ([] : List LogEntry) ++ fileSummary (0 + 1) 0 0
        = [⟨.info, "1 file(s) inserted."⟩] from rfl] at this
    rw [List.mem_singleton] at this
    rw [this]

/-- Witness for C7: a FILE record lacking `contentProperties` inserted
into the empty store. -/
theorem insert_files_empty_props_witness :
    ({ sampleFile "a1" ["P1"] with contentProperties := none }
        : RawNode).contentProperties = none ∧
    ∃ (db' : DB) (logs : List LogEntry),
      insert_files 7 none DB.empty
        [{ sampleFile "a1" ["P1"] with contentProperties := none }]
        = .ok (db', logs) ∧
      db'.files.filter (fun x => x.id == "a1")
        = [⟨"a1", "name-a1", "2015-01-01T00:00:00.000Z",
            "2015-01-02T00:00:00.000Z", EMPTY_MD5, 0, "AVAILABLE", 7⟩] ∧
      (∀ l ∈ logs, l.level = .info) :=
  ⟨rfl, insert_files_empty_props 7 DB.empty
    { sampleFile "a1" ["P1"] with contentProperties := none }
    "a1" "name-a1" "2015-01-01T00:00:00.000Z" "2015-01-02T00:00:00.000Z"
    "AVAILABLE" ["P1"] rfl rfl rfl rfl rfl rfl rfl (by simp [DB.empty])⟩

theorem filesLoop_cons (now : Nat) (s0 : FileLoopState) (r : RawNode)
    (rest : List RawNode) :
    filesLoop now s0 (r :: rest)
      = (fileStep now s0 r >>= fun s' => filesLoop now s' rest) := rfl

theorem filesLoop_append (now : Nat) (l1 l2 : List RawNode) :
    ∀ s0, filesLoop now s0 (l1 ++ l2)
      = (filesLoop now s0 l1 >>= fun s => filesLoop now s l2) := by
  induction l1 with
  | nil => intro s0; rfl
  | cons r rest ih =>
    intro s0
    rw [List.cons_append, filesLoop_cons, filesLoop_cons]
    cases h : fileStep now s0 r with
    | error e => rw [exBind_error, exBind_error, exBind_error]
    | ok s1 => rw [exBind_ok, exBind_ok, ih s1]

theorem fileStep_name_missing (now : Nat) (s : FileLoopState) (r : RawNode)
    (i : String) (hid : r.id = some i) (hnm : r.name = none) :
    fileStep now s r = .error (.keyError "name") := by
  simp only [fileStep, hid, hnm, getItem_some, getItem_none, exBind_ok,
    exBind_error]

theorem fileStep_md5_missing (now : Nat) (s : FileLoopState) (r : RawNode)
    (p : ContentProps) (i nm cd md : String)
    (hcp : r.contentProperties = some p) (h5 : p.md5 = none)
    (hid : r.id = some i) (hnm : r.name = some nm)
    (hcd : r.createdDate = some cd) (hmd : r.modifiedDate = some md) :
    fileStep now s r = .error (.keyError "md5") := by
  simp only [fileStep, hcp, h5, hid, hnm, hcd, hmd, getItem_some, getItem_none,
    exBind_ok, exBind_error]

theorem fileStep_size_missing (now : Nat) (s : FileLoopState) (r : RawNode)
    (p : ContentProps) (i nm cd md v5 : String)
    (hcp : r.contentProperties = some p) (h5 : p.md5 = some v5)
    (hsz : p.size = none)
    (hid : r.id = some i) (hnm : r.name = some nm)
    (hcd : r.createdDate = some cd) (hmd : r.modifiedDate = some md) :
    fileStep now s r = .error (.keyError "size") := by
  simp only [fileStep, hcp, h5, hsz, hid, hnm, hcd, hmd, getItem_some,
    getItem_none, exBind_ok, exBind_error]

theorem folderStep_ok_of_keys (now : Nat) (s : FolderLoopState) (r : RawNode)
    (i cd md st : String) (ps : List String)
    (hid : r.id = some i) (hcd : r.createdDate = some cd)
    (hmd : r.modifiedDate = some md) (hst : r.status = some st)
    (hps : r.parents = some ps) :
    ∃ s', folderStep now s r = .ok s' := by
  unfold folderStep
  rw [hid, getItem_some, exBind_ok, hcd, getItem_some, exBind_ok,
    hmd, getItem_some, exBind_ok, hst, getItem_some, exBind_ok,
    hps, getItem_some, exBind_ok]
  exact ⟨_, rfl⟩

theorem insert_files_error_of_loop_error (now : Nat) (ce : Option PyErr)
    (db : DB) (batch : List RawNode) (e : PyErr)
    (h : filesLoop now ⟨0, 0, 0, db.files, []⟩ batch = .error e) :
    insert_files now ce db batch = .error e := by
  unfold insert_files
  rw [h, exBind_error]

/-- C10: the file path subscripts `file['name']` directly, so a FILE
record lacking `name` makes `insert_files` raise `KeyError('name')`
(reached after any well-formed earlier records of the batch), rather
than store the record or soft-fail via logs; a present
`contentProperties` block lacking `md5` or `size` likewise raises — the
empty-file default applies only when the whole block is absent; by
contrast the folder path reads the name with a defaulting `.get`, so
`insert_folders` succeeds on a record with no `name`. -/
theorem insert_files_keyerrors :
    (∀ (now : Nat) (ce : Option PyErr) (db : DB) (pre post : List RawNode)
       (r : RawNode) (s0 : FileLoopState) (i : String),
      filesLoop now ⟨0, 0, 0, db.files, []⟩ pre = .ok s0 →
      r.id = some i → r.name = none →
      insert_files now ce db (pre ++ r :: post) = .error (.keyError "name")) ∧
    (∀ (now : Nat) (ce : Option PyErr) (db : DB) (pre post : List RawNode)
       (r : RawNode) (s0 : FileLoopState) (p : ContentProps) (i nm cd md : String),
      filesLoop now ⟨0, 0, 0, db.files, []⟩ pre = .ok s0 →
      r.contentProperties = some p → p.md5 = none →
      r.id = some i → r.name = some nm →
      r.createdDate = some cd → r.modifiedDate = some md →
      insert_files now ce db (pre ++ r :: post) = .error (.keyError "md5")) ∧
    (∀ (now : Nat) (ce : Option PyErr) (db : DB) (pre post : List RawNode)
       (r : RawNode) (s0 : FileLoopState) (p : ContentProps) (i nm cd md v5 : String),
      filesLoop now ⟨0, 0, 0, db.files, []⟩ pre = .ok s0 →
      r.contentProperties = some p → p.md5 = some v5 → p.size = none →
      r.id = some i → r.name = some nm →
      r.createdDate = some cd → r.modifiedDate = some md →
      insert_files now ce db (pre ++ r :: post) = .error (.keyError "size")) ∧
    (∀ (now : Nat) (db : DB) (r : RawNode) (i cd md st : String) (ps : List String),
      r.name = none →
      r.id = some i → r.createdDate = some cd → r.modifiedDate = some md →
      r.status = some st → r.parents = some ps →
      ∃ out, insert_folders now none db [r] = .ok out) := by
  refine ⟨?_, ?_, ?_, ?_⟩
  · intro now ce db pre post r s0 i hpre hid hnm
    refine insert_files_error_of_loop_error now ce db _ _ ?_
    rw [filesLoop_append, hpre, exBind_ok, filesLoop_cons,
      fileStep_name_missing now s0 r i hid hnm, exBind_error]
  · intro now ce db pre post r s0 p i nm cd md hpre hcp h5 hid hnm hcd hmd
    refine insert_files_error_of_loop_error now ce db _ _ ?_
    rw [filesLoop_append, hpre, exBind_ok, filesLoop_cons,
      fileStep_md5_missing now s0 r p i nm cd md hcp h5 hid hnm hcd hmd,
      exBind_error]
  · intro now ce db pre post r s0 p i nm cd md v5 hpre hcp h5 hsz hid hnm hcd hmd
    refine insert_files_error_of_loop_error now ce db _ _ ?_
    rw [filesLoop_append, hpre, exBind_ok, filesLoop_cons,
      fileStep_size_missing now s0 r p i nm cd md v5 hcp h5 hsz hid hnm hcd hmd,
      exBind_error]
  · intro now db r i cd md st ps hnm hid hcd hmd hst hps
    obtain ⟨s', hstep⟩ := folderStep_ok_of_keys now ⟨0, 0, 0, db.folders, [], []⟩
      r i cd md st ps hid hcd hmd hst hps
    exact ⟨_, insert_folders_eval_none now db [r] s'
      (foldersLoop_singleton now _ r s' hstep)⟩

/-- Witness for C10 at concrete malformed records over the empty store:
a FILE with no name, a FILE whose contentProperties lacks md5, a FILE
whose contentProperties lacks size, and a FOLDER with no name. -/
theorem insert_files_keyerrors_witness :
    insert_files 7 none DB.empty [{ sampleFile "a1" ["P1"] with name := none }]
      = .error (.keyError "name") ∧
    insert_files 7 none DB.empty
      [{ sampleFile "a1" ["P1"] with contentProperties := some ⟨none, some 5⟩ }]
      = .error (.keyError "md5") ∧
    insert_files 7 none DB.empty
      [{ sampleFile "a1" ["P1"] with contentProperties := some ⟨some "abc", none⟩ }]
      = .error (.keyError "size") ∧
    ∃ out, insert_folders 7 none DB.empty
      [{ sampleFolder "f1" ["P1"] with name := none }] = .ok out := by
  refine ⟨?_, ?_, ?_, ?_⟩
  · exact insert_files_keyerrors.1 7 none DB.empty [] []
      { sampleFile "a1" ["P1"] with name := none } ⟨0, 0, 0, [], []⟩ "a1"
      rfl rfl rfl
  · exact insert_files_keyerrors.2.1 7 none DB.empty [] []
      { sampleFile "a1" ["P1"] with contentProperties := some ⟨none, some 5⟩ }
      ⟨0, 0, 0, [], []⟩ ⟨none, some 5⟩ "a1" "name-a1"
      "2015-01-01T00:00:00.000Z" "2015-01-02T00:00:00.000Z"
      rfl rfl rfl rfl rfl rfl rfl
  · exact insert_files_keyerrors.2.2.1 7 none DB.empty [] []
      { sampleFile "a1" ["P1"] with contentProperties := some ⟨some "abc", none⟩ }
      ⟨0, 0, 0, [], []⟩ ⟨some "abc", none⟩ "a1" "name-a1"
      "2015-01-01T00:00:00.000Z" "2015-01-02T00:00:00.000Z" "abc"
      rfl rfl rfl rfl rfl rfl rfl rfl
  · exact insert_files_keyerrors.2.2.2 7 DB.empty
      { sampleFolder "f1" ["P1"] with name := none }
      "f1" "2015-01-01T00:00:00.000Z" "2015-01-02T00:00:00.000Z"
      "AVAILABLE" ["P1"] rfl rfl rfl rfl rfl rfl

/-- C5: applying the same valid folder (resp. file) record twice — two
successive upsert calls — leaves exactly one stored row for that id,
with content fields equal to the record's on both occasions; the second
call is tallied as a duplicate (its summary log is the duplicate line,
not the inserted or updated line) and still refreshes the row's local
`updated` timestamp to the second call's clock. -/
theorem upsert_idempotent :
    (∀ (now1 now2 : Nat) (db : DB) (r : RawNode) (i cd md st : String)
       (ps : List String),
      r.id = some i → r.createdDate = some cd → r.modifiedDate = some md →
      r.status = some st → r.parents = some ps →
      (∀ x ∈ db.folders, x.id ≠ i) →
      ∃ (db1 db2 : DB) (logs1 logs2 : List LogEntry),
        insert_folders now1 none db [r] = .ok (db1, logs1) ∧
        insert_folders now2 none db1 [r] = .ok (db2, logs2) ∧
        logs1 = [⟨.debug, "folder record"⟩, ⟨.info, "1 folder(s) inserted."⟩] ∧
        logs2 = [⟨.debug, "folder record"⟩,
                 ⟨.info, "1 duplicate folders not inserted."⟩] ∧
        db1.folders.filter (fun x => x.id == i) = [⟨i, r.name, cd, md, st, now1⟩] ∧
        db2.folders.filter (fun x => x.id == i) = [⟨i, r.name, cd, md, st, now2⟩] ∧
        db2.files = db.files) ∧
    (∀ (now1 now2 : Nat) (db : DB) (r : RawNode) (i nm cd md h5 st : String)
       (sz : Int) (ps : List String),
      r.contentProperties = some ⟨some h5, some sz⟩ →
      r.id = some i → r.name = some nm → r.createdDate = some cd →
      r.modifiedDate = some md → r.status = some st → r.parents = some ps →
      (∀ x ∈ db.files, x.id ≠ i) →
      ∃ (db1 db2 : DB) (logs1 logs2 : List LogEntry),
        insert_files now1 none db [r] = .ok (db1, logs1) ∧
        insert_files now2 none db1 [r] = .ok (db2, logs2) ∧
        logs1 = [⟨.info, "1 file(s) inserted."⟩] ∧
        logs2 = [⟨.info, "1 duplicate files not inserted."⟩] ∧
        db1.files.filter (fun x => x.id == i)
          = [⟨i, nm, cd, md, h5, sz, st, now1⟩] ∧
        db2.files.filter (fun x => x.id == i)
          = [⟨i, nm, cd, md, h5, sz, st, now2⟩] ∧
        db2.folders = db.folders) := by
  constructor
  · intro now1 now2 db r i cd md st ps hid hcd hmd hst hps hno
    have hf0 : db.folders.find? (fun x => x.id == i) = none :=
      List.find?_eq_none.mpr (fun x hx => by simpa using hno x hx)
    have hstep1 := folderStep_eval_fresh now1 ⟨0, 0, 0, db.folders, [], []⟩ r
      i cd md st ps hid hcd hmd hst hps hf0
    have hf1 : ((db.folders ++ [(⟨i, r.name, cd, md, st, now1⟩ : FolderRow)]).find?
        (fun x => x.id == i)) = some ⟨i, r.name, cd, md, st, now1⟩ := by
      rw [find?_append_no_match _ _ _ (fun x hx => by simpa using hno x hx)]
      simp
    have heq : folderEq ⟨i, r.name, cd, md, st, now2⟩ ⟨i, r.name, cd, md, st, now1⟩
        = true := by simp [folderEq]
    have hstep2 := folderStep_eval_dup now2
      ⟨0, 0, 0, db.folders ++ [⟨i, r.name, cd, md, st, now1⟩], [], []⟩ r
      i cd md st ps ⟨i, r.name, cd, md, st, now1⟩ hid hcd hmd hst hps hf1 heq
    refine ⟨_, _, _, _,
      insert_folders_eval_none now1 db [r] _
        (foldersLoop_singleton now1 _ r _ hstep1),
      insert_folders_eval_none now2 _ [r] _
        (foldersLoop_singleton now2 _ r _ hstep2),
      by show ([] ++ [(⟨.debug, "folder record"⟩ : LogEntry)])
           ++ folderSummary (0 + 1) 0 0
           = [⟨.debug, "folder record"⟩, ⟨.info, "1 folder(s) inserted."⟩]
         decide,
      by show ([] ++ [(⟨.debug, "folder record"⟩ : LogEntry)])
           ++ folderSummary 0 (0 + 1) 0
           = [⟨.debug, "folder record"⟩,
              ⟨.info, "1 duplicate folders not inserted."⟩]
         decide,
      ?_, ?_, rfl⟩
    · show ((db.folders ++ [(⟨i, r.name, cd, md, st, now1⟩ : FolderRow)]).filter
          (fun x => x.id == i)) = [⟨i, r.name, cd, md, st, now1⟩]
      rw [List.filter_append,
        List.filter_eq_nil_iff.mpr (fun x hx => by simpa using hno x hx)]
      simp
    · show (((db.folders ++ [(⟨i, r.name, cd, md, st, now1⟩ : FolderRow)]).map
          (fun x => if x.id == i then ⟨i, r.name, cd, md, st, now2⟩ else x)).filter
          (fun x => x.id == i)) = [⟨i, r.name, cd, md, st, now2⟩]
      rw [List.map_append, map_replace_no_match db.folders i _ hno]
      rw [show ([(⟨i, r.name, cd, md, st, now1⟩ : FolderRow)].map
          (fun x => if x.id == i then ⟨i, r.name, cd, md, st, now2⟩ else x))
          = [⟨i, r.name, cd, md, st, now2⟩] by simp]
      rw [List.filter_append,
        List.filter_eq_nil_iff.mpr (fun x hx => by simpa using hno x hx)]
      simp
  · intro now1 now2 db r i nm cd md h5 st sz ps hcp hid hnm hcd hmd hst hps hno
    have hf0 : db.files.find? (fun x => x.id == i) = none :=
      List.find?_eq_none.mpr (fun x hx => by simpa using hno x hx)
    have hstep1 := fileStep_eval_fresh now1 ⟨0, 0, 0, db.files, []⟩ r
      i nm cd md h5 st sz ps hcp hid hnm hcd hmd hst hps hf0
    have hf1 : ((db.files ++ [(⟨i, nm, cd, md, h5, sz, st, now1⟩ : FileRow)]).find?
        (fun x => x.id == i)) = some ⟨i, nm, cd, md, h5, sz, st, now1⟩ := by
      rw [find?_append_no_match _ _ _ (fun x hx => by simpa using hno x hx)]
      simp
    have heq : fileEq ⟨i, nm, cd, md, h5, sz, st, now2⟩
        ⟨i, nm, cd, md, h5, sz, st, now1⟩ = true := by simp [fileEq]
    have hstep2 := fileStep_eval_dup now2
      ⟨0, 0, 0, db.files ++ [⟨i, nm, cd, md, h5, sz, st, now1⟩], []⟩ r
      i nm cd md h5 st sz ps ⟨i, nm, cd, md, h5, sz, st, now1⟩
      hcp hid hnm hcd hmd hst hps hf1 heq
    refine ⟨_, _, _, _,
      insert_files_eval_none now1 db [r] _
        (filesLoop_singleton now1 _ r _ hstep1),
      insert_files_eval_none now2 _ [r] _
        (filesLoop_singleton now2 _ r _ hstep2),
      by show ([] : List LogEntry) ++ fileSummary (0 + 1) 0 0
           = [⟨.info, "1 file(s) inserted."⟩]
         decide,
      by show ([] : List LogEntry) ++ fileSummary 0 (0 + 1) 0
           = [⟨.info, "1 duplicate files not inserted."⟩]
         decide,
      ?_, ?_, rfl⟩
    · show ((db.files ++ [(⟨i, nm, cd, md, h5, sz, st, now1⟩ : FileRow)]).filter
          (fun x => x.id == i)) = [⟨i, nm, cd, md, h5, sz, st, now1⟩]
      rw [List.filter_append,
        List.filter_eq_nil_iff.mpr (fun x hx => by simpa using hno x hx)]
      simp
    · show ((((db.files ++ [(⟨i, nm, cd, md, h5, sz, st, now1⟩ : FileRow)]).eraseP
          (fun x => x.id == i))
            ++ [(⟨i, nm, cd, md, h5, sz, st, now2⟩ : FileRow)]).filter
          (fun x => x.id == i)) = [⟨i, nm, cd, md, h5, sz, st, now2⟩]
      rw [List.eraseP_append_right _ (fun x hx => by simpa using hno x hx)]
      rw [show ([(⟨i, nm, cd, md, h5, sz, st, now1⟩ : FileRow)].eraseP
          (fun x => x.id == i)) = [] by simp [List.eraseP_cons]]
      rw [List.append_nil, List.filter_append,
        List.filter_eq_nil_iff.mpr (fun x hx => by simpa using hno x hx)]
      simp

/-- Witness for C5: the same folder record applied at clocks 7 and 9,
and the same file record likewise, over the empty store. -/
theorem upsert_idempotent_witness :
    ((sampleFolder "f1" ["P1"]).id = some "f1" ∧
     ∀ x ∈ DB.empty.folders, x.id ≠ "f1") ∧
    (∃ (db1 db2 : DB) (logs1 logs2 : List LogEntry),
      insert_folders 7 none DB.empty [sampleFolder "f1" ["P1"]] = .ok (db1, logs1) ∧
      insert_folders 9 none db1 [sampleFolder "f1" ["P1"]] = .ok (db2, logs2) ∧
      logs1 = [⟨.debug, "folder record"⟩, ⟨.info, "1 folder(s) inserted."⟩] ∧
      logs2 = [⟨.debug, "folder record"⟩,
               ⟨.info, "1 duplicate folders not inserted."⟩] ∧
      db1.folders.filter (fun x => x.id == "f1")
        = [⟨"f1", some "name-f1", "2015-01-01T00:00:00.000Z",
            "2015-01-02T00:00:00.000Z", "AVAILABLE", 7⟩] ∧
      db2.folders.filter (fun x => x.id == "f1")
        = [⟨"f1", some "name-f1", "2015-01-01T00:00:00.000Z",
            "2015-01-02T00:00:00.000Z", "AVAILABLE", 9⟩] ∧
      db2.files = DB.empty.files) ∧
    (∃ (db1 db2 : DB) (logs1 logs2 : List LogEntry),
      insert_files 7 none DB.empty [sampleFile "a1" ["P1"]] = .ok (db1, logs1) ∧
      insert_files 9 none db1 [sampleFile "a1" ["P1"]] = .ok (db2, logs2) ∧
      logs1 = [⟨.info, "1 file(s) inserted."⟩] ∧
      logs2 = [⟨.info, "1 duplicate files not inserted."⟩] ∧
      db1.files.filter (fun x => x.id == "a1")
        = [⟨"a1", "name-a1", "2015-01-01T00:00:00.000Z",
            "2015-01-02T00:00:00.000Z", "abc", 5, "AVAILABLE", 7⟩] ∧
      db2.files.filter (fun x => x.id == "a1")
        = [⟨"a1", "name-a1", "2015-01-01T00:00:00.000Z",
            "2015-01-02T00:00:00.000Z", "abc", 5, "AVAILABLE", 9⟩] ∧
      db2.folders = DB.empty.folders) :=
  ⟨⟨rfl, by decide⟩,
   upsert_idempotent.1 7 9 DB.empty (sampleFolder "f1" ["P1"]) "f1"
     "2015-01-01T00:00:00.000Z" "2015-01-02T00:00:00.000Z" "AVAILABLE" ["P1"]
     rfl rfl rfl rfl rfl (by decide),
   upsert_idempotent.2 7 9 DB.empty (sampleFile "a1" ["P1"]) "a1" "name-a1"
     "2015-01-01T00:00:00.000Z" "2015-01-02T00:00:00.000Z" "abc" "AVAILABLE" 5
     ["P1"] rfl rfl rfl rfl rfl rfl rfl (by decide)⟩

theorem edge_exactness_aux (batch : List RawNode) (par : List (String × String))
    (r : RawNode) (c : String) (ps : List String)
    (hpres : ∀ r' ∈ batch, r'.id ≠ none)
    (hr : r ∈ batch) (hid : r.id = some c) (hps : r.parents = some ps)
    (huniq : ∀ r' ∈ batch, r'.id = some c → r' = r)
    (hnd : par.Nodup) :
    ((applyEdgeInserts (batch.map rawPair)
        (par.filter (fun e => !((batchIds batch).contains e.2)))).filter
        (fun e => e.2 == c)).Nodup ∧
    (∀ p, (p, c) ∈ applyEdgeInserts (batch.map rawPair)
        (par.filter (fun e => !((batchIds batch).contains e.2)))
      ↔ p ∈ ps) := by
  constructor
  · exact List.Nodup.filter _
      (nodup_applyEdgeInserts _ _ (List.Nodup.filter _ hnd))
  · intro p
    rw [mem_applyEdgeInserts]
    constructor
    · rintro (hmem | ⟨rel, hrel, h1, h2⟩)
      · exfalso
        have hpred := (List.mem_filter.mp hmem).2
        have hc : c ∈ batchIds batch :=
          List.mem_map.mpr ⟨r, hr, by rw [hid]; rfl⟩
        rw [show ((p, c).2) = c from rfl] at hpred
        have : c ∉ batchIds batch := by simpa using hpred
        exact this hc
      · obtain ⟨r', hr', hrel'⟩ := List.mem_map.mp hrel
        obtain ⟨v, hv⟩ := Option.ne_none_iff_exists'.mp ((hpres r' hr'))
        have hvc : v = c := by
          have h1' : (rawPair r').1 = c := by rw [hrel']; exact h1
          simpa [rawPair, hv] using h1'
        have hrr : r' = r := huniq r' hr' (by rw [hv, hvc])
        subst hrr
        rw [← hrel'] at h2
        simpa [rawPair, hps] using h2
    · intro hp
      refine Or.inr ⟨rawPair r, List.mem_map_of_mem _ hr, ?_, ?_⟩
      · simp [rawPair, hid]
      · simpa [rawPair, hps] using hp

/-- C1: after a call to `insert_folders` or `insert_files` returns, the
stored parentage edge set of every child id carried by exactly one
record of the batch is exactly that record's parents list, deduplicated
— regardless of previously stored edges for that child and of duplicate
entries in the input parents list. Edges are stored as `(parent, child)`
rows, so child `c`'s edge set is `{(p, c) | p}`; its exactness is stated
as membership equivalence with the record's parents list plus
duplicate-freeness of the stored rows for `c` (given the edge table's
unique-pair invariant on entry). -/
theorem parentage_exactness :
    (∀ (now : Nat) (ce : Option PyErr) (db : DB) (batch : List RawNode)
       (db' : DB) (logs : List LogEntry) (r : RawNode) (c : String)
       (ps : List String),
      insert_folders now ce db batch = .ok (db', logs) →
      r ∈ batch → r.id = some c → r.parents = some ps →
      (∀ r' ∈ batch, r'.id = some c → r' = r) →
      db.parentage.Nodup →
      (db'.parentage.filter (fun e => e.2 == c)).Nodup ∧
      (∀ p, (p, c) ∈ db'.parentage ↔ p ∈ ps)) ∧
    (∀ (now : Nat) (ce : Option PyErr) (db : DB) (batch : List RawNode)
       (db' : DB) (logs : List LogEntry) (r : RawNode) (c : String)
       (ps : List String),
      insert_files now ce db batch = .ok (db', logs) →
      r ∈ batch → r.id = some c → r.parents = some ps →
      (∀ r' ∈ batch, r'.id = some c → r' = r) →
      db.parentage.Nodup →
      (db'.parentage.filter (fun e => e.2 == c)).Nodup ∧
      (∀ p, (p, c) ∈ db'.parentage ↔ p ∈ ps)) := by
  constructor
  · intro now ce db batch db' logs r c ps h hr hid hps huniq hnd
    obtain ⟨hpres, hpar, -, -⟩ := insert_folders_ok_elim now ce db batch db' logs h
    rw [hpar]
    exact edge_exactness_aux batch db.parentage r c ps
      (fun r' hr' => (hpres r' hr').1) hr hid hps huniq hnd
  · intro now ce db batch db' logs r c ps h hr hid hps huniq hnd
    obtain ⟨hpres, hpar, -, -⟩ := insert_files_ok_elim now ce db batch db' logs h
    rw [hpar]
    exact edge_exactness_aux batch db.parentage r c ps
      (fun r' hr' => (hpres r' hr').1) hr hid hps huniq hnd

/-- Witness for C1: a folder batch whose record lists parents
`["P1", "P2", "P1"]` (a duplicate entry), over a store already holding a
stale edge for that child and an unrelated edge; afterwards the child's
edge rows are exactly `(P1, f1)` and `(P2, f1)`. -/
theorem parentage_exactness_witness :
    insert_folders 7 none ⟨[], [], [("OLD", "f1"), ("KEEP", "zz")], []⟩
        [sampleFolder "f1" ["P1", "P2", "P1"]]
      = .ok (⟨[⟨"f1", some "name-f1", "2015-01-01T00:00:00.000Z",
                "2015-01-02T00:00:00.000Z", "AVAILABLE", 7⟩], [],
              [("KEEP", "zz"), ("P1", "f1"), ("P2", "f1")], []⟩,
             [⟨.debug, "folder record"⟩, ⟨.info, "1 folder(s) inserted."⟩]) ∧
    (((⟨[⟨"f1", some "name-f1", "2015-01-01T00:00:00.000Z",
          "2015-01-02T00:00:00.000Z", "AVAILABLE", 7⟩], [],
        [("KEEP", "zz"), ("P1", "f1"), ("P2", "f1")], []⟩ : DB).parentage.filter
        (fun e => e.2 == "f1")).Nodup ∧
     ∀ p, (p, "f1") ∈ (⟨[⟨"f1", some "name-f1", "2015-01-01T00:00:00.000Z",
          "2015-01-02T00:00:00.000Z", "AVAILABLE", 7⟩], [],
        [("KEEP", "zz"), ("P1", "f1"), ("P2", "f1")], []⟩ : DB).parentage
       ↔ p ∈ ["P1", "P2", "P1"]) :=
  ⟨by decide,
   parentage_exactness.1 7 none ⟨[], [], [("OLD", "f1"), ("KEEP", "zz")], []⟩
     [sampleFolder "f1" ["P1", "P2", "P1"]]
     ⟨[⟨"f1", some "name-f1", "2015-01-01T00:00:00.000Z",
        "2015-01-02T00:00:00.000Z", "AVAILABLE", 7⟩], [],
      [("KEEP", "zz"), ("P1", "f1"), ("P2", "f1")], []⟩
     [⟨.debug, "folder record"⟩, ⟨.info, "1 folder(s) inserted."⟩]
     (sampleFolder "f1" ["P1", "P2", "P1"]) "f1" ["P1", "P2", "P1"]
     (by decide) (by decide) rfl rfl (by decide) (by decide)⟩
